import Mathlib

/-!
# BitmapGrayscale: colour bitmap to grayscale converter

A shallow embedding of `src/main.cpp`, and the properties of it that the specification states.

* Bytes are `Fin 256`; the 16 and 32 bit header fields are natural numbers, and every
  place where the program computes in `uint32_t` carries an explicit reduction modulo 2 ^ 32.
* The program overlays its packed structs on raw memory (`read((char*)&header, ...)`).
  The embedding keeps that memory as a list of bytes and views it field by field, in
  declaration order, little-endian (the byte order of the hosts the program is built for and
  the one the specification fixes).
* The automatic objects `header`, `info` and `rgbIn` are not initialised by the program;
  their first contents are a parameter of the run (`Stack`).
* The input stream is explicit state: the bytes of the file, the read position, `eofbit` and
  `failbit`. Seeking past the end succeeds and the next read finds no bytes. The bytes
  written to the output stream are collected in a list; writes are taken to succeed.
* `double` arithmetic is IEEE-754 binary64 with round-to-nearest, ties to even, every
  product and sum rounded once, in source order. All values the program computes are
  multiples of 2 ^ -56, so a `double` is held as that multiple, a natural number.
-/

namespace BitmapGrayscale

/-! ## Data model (lines 13-54) -/

/-- One octet of a file or of memory. -/
abbrev Byte := Fin 256

/-- The compression code `BI_RGB` (line 14), the only one the program supports. -/
def BI_RGB : Nat := 0

/-- The compression code `BI_RLE8` (line 15). -/
def BI_RLE8 : Nat := 1

/-- The packed struct `RGBColor` (lines 27-31): three octets in declaration order. -/
structure RGBColor where
  red : Byte
  green : Byte
  blue : Byte
  deriving DecidableEq

/-- The packed struct `BitmapInfoHeader` (lines 33-45). -/
structure BitmapInfoHeader where
  size : Nat
  width : Nat
  height : Nat
  color_planes : Nat
  color_depth : Nat
  compression : Nat
  bitmap_size : Nat
  x_resolution : Nat
  y_resolution : Nat
  colors : Nat
  important_colors : Nat
  deriving DecidableEq

/-- The packed struct `BitmapFileHeader` (lines 47-54). -/
structure BitmapFileHeader where
  magic1 : Nat
  magic2 : Nat
  total_size : Nat
  reserved1 : Nat
  reserved2 : Nat
  bitmap_offset : Nat
  deriving DecidableEq

/-- The value of `sizeof(BitmapFileHeader)` for the packed layout. -/
def sizeofBitmapFileHeader : Nat := 14

/-- The value of `sizeof(BitmapInfoHeader)` for the packed layout. -/
def sizeofBitmapInfoHeader : Nat := 40

/-- The value of `sizeof(RGBColor)` for the packed layout. -/
def sizeofRGBColor : Nat := 3

/-- Reduction of a natural number to the range of `uint32_t`. -/
def u32 (n : Nat) : Nat := n % 4294967296

/-- Reduction of a natural number to one octet. -/
def toByte (n : Nat) : Byte := Fin.ofNat n

/-! ## Memory overlay of the packed structs -/

/-- The octet at index `i` of a memory block. -/
def byteAt (m : List Byte) (i : Nat) : Byte := m.getD i 0

/-- Little-endian value of a two-octet field. -/
def le16 (b0 b1 : Byte) : Nat := b0.val + 256 * b1.val

/-- Little-endian value of a four-octet field. -/
def le32 (b0 b1 b2 b3 : Byte) : Nat :=
  b0.val + 256 * b1.val + 65536 * b2.val + 16777216 * b3.val

/-- Little-endian octets of a two-octet field. -/
def enc16 (n : Nat) : List Byte := [toByte n, toByte (n / 256)]

/-- Little-endian octets of a four-octet field. -/
def enc32 (n : Nat) : List Byte :=
  [toByte n, toByte (n / 256), toByte (n / 65536), toByte (n / 16777216)]

/-- View of 14 octets of memory as a `BitmapFileHeader`. -/
def BitmapFileHeader.ofBytes (m : List Byte) : BitmapFileHeader where
  magic1 := (byteAt m 0).val
  magic2 := (byteAt m 1).val
  total_size := le32 (byteAt m 2) (byteAt m 3) (byteAt m 4) (byteAt m 5)
  reserved1 := le16 (byteAt m 6) (byteAt m 7)
  reserved2 := le16 (byteAt m 8) (byteAt m 9)
  bitmap_offset := le32 (byteAt m 10) (byteAt m 11) (byteAt m 12) (byteAt m 13)

/-- The 14 octets of memory a `BitmapFileHeader` occupies. -/
def BitmapFileHeader.toBytes (h : BitmapFileHeader) : List Byte :=
  [toByte h.magic1, toByte h.magic2] ++ enc32 h.total_size ++ enc16 h.reserved1
    ++ enc16 h.reserved2 ++ enc32 h.bitmap_offset

/-- View of 40 octets of memory as a `BitmapInfoHeader`. -/
def BitmapInfoHeader.ofBytes (m : List Byte) : BitmapInfoHeader where
  size := le32 (byteAt m 0) (byteAt m 1) (byteAt m 2) (byteAt m 3)
  width := le32 (byteAt m 4) (byteAt m 5) (byteAt m 6) (byteAt m 7)
  height := le32 (byteAt m 8) (byteAt m 9) (byteAt m 10) (byteAt m 11)
  color_planes := le16 (byteAt m 12) (byteAt m 13)
  color_depth := le16 (byteAt m 14) (byteAt m 15)
  compression := le32 (byteAt m 16) (byteAt m 17) (byteAt m 18) (byteAt m 19)
  bitmap_size := le32 (byteAt m 20) (byteAt m 21) (byteAt m 22) (byteAt m 23)
  x_resolution := le32 (byteAt m 24) (byteAt m 25) (byteAt m 26) (byteAt m 27)
  y_resolution := le32 (byteAt m 28) (byteAt m 29) (byteAt m 30) (byteAt m 31)
  colors := le32 (byteAt m 32) (byteAt m 33) (byteAt m 34) (byteAt m 35)
  important_colors := le32 (byteAt m 36) (byteAt m 37) (byteAt m 38) (byteAt m 39)

/-- The 40 octets of memory a `BitmapInfoHeader` occupies. -/
def BitmapInfoHeader.toBytes (i : BitmapInfoHeader) : List Byte :=
  enc32 i.size ++ enc32 i.width ++ enc32 i.height ++ enc16 i.color_planes
    ++ enc16 i.color_depth ++ enc32 i.compression ++ enc32 i.bitmap_size
    ++ enc32 i.x_resolution ++ enc32 i.y_resolution ++ enc32 i.colors
    ++ enc32 i.important_colors

/-- View of 3 octets of memory as an `RGBColor`. -/
def RGBColor.ofBytes (m : List Byte) : RGBColor where
  red := byteAt m 0
  green := byteAt m 1
  blue := byteAt m 2

/-- The 3 octets of memory an `RGBColor` occupies. -/
def RGBColor.toBytes (c : RGBColor) : List Byte := [c.red, c.green, c.blue]

/-! ## The grayscale function (lines 56-58) -/

/-- The number of units in 1.0: a `double` x is held as the natural number x * 2 ^ 56. -/
def fpUnit : Nat := 72057594037927936

/-- The number of low bits of `n` that do not fit into a 53-bit significand: the least `k`
with `n / 2 ^ k < 2 ^ 53`. The first argument bounds the number of halvings. -/
def excessBits : Nat → Nat → Nat
  | 0, _ => 0
  | fuel + 1, n => if n < 9007199254740992 then 0 else excessBits fuel (n / 2) + 1

/-- Rounding of an exact non-negative value to the nearest `double` (53 significant bits),
ties to the even significand. -/
def roundDouble (n : Nat) : Nat :=
  let p := 2 ^ excessBits n n
  let q := n / p
  let r := n % p
  if 2 * r < p then q * p
  else if p < 2 * r then (q + 1) * p
  else if q % 2 = 0 then q * p
  else (q + 1) * p

/-- The literal `0.1` as a `double`: 0x1.999999999999ap-4. -/
def c01 : Nat := 7205759403792794

/-- The literal `0.6` as a `double`: 0x1.3333333333333p-1. -/
def c06 : Nat := 43234556422756760

/-- The literal `0.3` as a `double`: 0x1.3333333333333p-2. -/
def c03 : Nat := 21617278211378380

/-- The `double` value of the expression `0.1 * color.red + 0.6 * color.green + 0.3 * color.blue`
(line 57): three rounded products, added left to right, each sum rounded. -/
def weightedSum (color : RGBColor) : Nat :=
  roundDouble (roundDouble (roundDouble (c01 * color.red.val) + roundDouble (c06 * color.green.val))
    + roundDouble (c03 * color.blue.val))

/-- The function `grayscale` (lines 56-58): the weighted sum, converted to `uint8_t` by
discarding the fractional part. -/
def grayscale (color : RGBColor) : Byte := toByte (weightedSum color / fpUnit)

/-! ## Header checks (lines 73-97) -/

/-- The four diagnostics of the program, under the names the specification gives them. -/
inductive FormatError where
  | BadMagic
  | UnsupportedColorDepth
  | UnsupportedCompression
  | SizeMismatch
  deriving DecidableEq

deriving instance DecidableEq for Except

/-- The magic check of line 73. -/
def checkMagic (header : BitmapFileHeader) : Except FormatError Unit :=
  if header.magic1 ≠ 66 ∨ header.magic2 ≠ 77 then .error .BadMagic else .ok ()

/-- The three checks on the info header, lines 81-97, in program order. The product of
line 93 is computed in `uint32_t`. -/
def validate (info : BitmapInfoHeader) : Except FormatError Unit :=
  if info.color_depth ≠ 24 then .error .UnsupportedColorDepth
  else if info.compression ≠ BI_RGB then .error .UnsupportedCompression
  else if info.bitmap_size ≠ u32 (u32 (3 * info.width) * info.height) then .error .SizeMismatch
  else .ok ()

/-! ## Reading and writing the two headers (lines 71, 79, 121, 122) -/

/-- The file header held in the first 14 bytes of a file. -/
def fileHeaderOf (data : List Byte) : BitmapFileHeader :=
  BitmapFileHeader.ofBytes (data.take sizeofBitmapFileHeader)

/-- The info header held in the 40 bytes after the file header. -/
def infoHeaderOf (data : List Byte) : BitmapInfoHeader :=
  BitmapInfoHeader.ofBytes ((data.drop sizeofBitmapFileHeader).take sizeofBitmapInfoHeader)

/-- Decoding of the two headers from the leading bytes of a file (lines 71-79): the magic
check comes before the info header is read. -/
def decodeHeaders (data : List Byte) : Except FormatError (BitmapFileHeader × BitmapInfoHeader) :=
  match checkMagic (fileHeaderOf data) with
  | .error e => .error e
  | .ok _ => .ok (fileHeaderOf data, infoHeaderOf data)

/-- Encoding of the two headers as written by lines 121-122. -/
def encodeHeaders (header : BitmapFileHeader) (info : BitmapInfoHeader) : List Byte :=
  header.toBytes ++ info.toBytes

/-- An input passes validation: it holds both headers and the four checks accept them. -/
def PassesValidation (data : List Byte) : Prop :=
  sizeofBitmapFileHeader + sizeofBitmapInfoHeader ≤ data.length
    ∧ checkMagic (fileHeaderOf data) = .ok ()
    ∧ validate (infoHeaderOf data) = .ok ()

instance (data : List Byte) : Decidable (PassesValidation data) := by
  unfold PassesValidation
  infer_instance

/-! ## Derivation of the output headers (lines 110-118) -/

/-- Lines 110-118: the assignments to `header` and `info` before they are written. The sum of
line 110 is taken in `size_t` from a `uint32_t` product and stored into a `uint32_t`. -/
def deriveOutputHeaders (header : BitmapFileHeader) (info : BitmapInfoHeader) :
    BitmapFileHeader × BitmapInfoHeader :=
  let header1 := { header with
    total_size := u32 (sizeofBitmapFileHeader + sizeofBitmapInfoHeader
      + u32 (u32 (3 * info.width) * info.height)) }
  let header2 := { header1 with
    bitmap_offset := u32 (sizeofBitmapFileHeader + sizeofBitmapInfoHeader) }
  let info1 := { info with size := u32 sizeofBitmapInfoHeader }
  let info2 := { info1 with color_planes := 1 }
  let info3 := { info2 with compression := BI_RGB }
  let info4 := { info3 with bitmap_size := u32 (u32 (3 * info3.width) * info3.height) }
  let info5 := { info4 with colors := 16777215 }
  let info6 := { info5 with important_colors := 0 }
  (header2, info6)

/-! ## The input stream -/

/-- State of the `ifstream`: the bytes of the file, the read position and the two state
flags the program can raise. -/
structure IStream where
  data : List Byte
  pos : Nat
  eofbit : Bool
  failbit : Bool
  deriving DecidableEq

/-- A freshly opened stream over the bytes of a file. -/
def IStream.opened (data : List Byte) : IStream :=
  { data := data, pos := 0, eofbit := false, failbit := false }

/-- The call `read(buf, n)`: when the stream is not good nothing is extracted and `failbit`
is raised; otherwise up to `n` bytes are stored at the start of `buf`, and a shortfall raises
`eofbit` and `failbit`. The memory of `buf` beyond the bytes stored keeps its contents. -/
def IStream.read (s : IStream) (buf : List Byte) (n : Nat) : IStream × List Byte :=
  if s.eofbit || s.failbit then ({ s with failbit := true }, buf)
  else
    let got := (s.data.drop s.pos).take n
    if got.length = n then ({ s with pos := s.pos + n }, got ++ buf.drop n)
    else ({ s with pos := s.pos + got.length, eofbit := true, failbit := true },
      got ++ buf.drop got.length)

/-- The call `seekg(pos, ios_base::beg)`: `eofbit` is cleared, and the position is set
unless `failbit` is raised. -/
def IStream.seekg (s : IStream) (pos : Nat) : IStream :=
  if s.failbit then { s with eofbit := false }
  else { s with eofbit := false, pos := pos }

/-! ## The pixel loop (lines 124-142) -/

/-- The state the pixel loop changes: the input stream, the memory of `rgbIn` and the bytes
written to the output stream so far. -/
structure LoopState where
  input : IStream
  rgbIn : List Byte
  out : List Byte
  deriving DecidableEq

/-- The body of the inner loop (lines 131-133): read one sample into `rgbIn`, set the three
channels of `rgbOut` to its grayscale value, write `rgbOut`. -/
def pixelStep (st : LoopState) : LoopState :=
  let r := st.input.read st.rgbIn sizeofRGBColor
  let g := grayscale (RGBColor.ofBytes r.2)
  { input := r.1, rgbIn := r.2, out := st.out ++ RGBColor.toBytes { red := g, green := g, blue := g } }

/-- The inner loop `for (j = 0; j < info.width; j++)`, by the number of iterations left. -/
def rowLoop : Nat → LoopState → LoopState
  | 0, st => st
  | n + 1, st => rowLoop n (pixelStep st)

/-- The outer loop `for (i = 0; i < info.height; i++)`, by the number of iterations left. -/
def imageLoop (width : Nat) : Nat → LoopState → LoopState
  | 0, st => st
  | n + 1, st => imageLoop width n (rowLoop width st)

/-- The transform of a run of stored samples as the specification describes it: each of
the first `n` samples, in order, becomes three bytes equal to its grayscale value. -/
def transformStream : Nat → List Byte → List Byte
  | 0, _ => []
  | n + 1, px =>
    [grayscale (RGBColor.ofBytes px), grayscale (RGBColor.ofBytes px),
      grayscale (RGBColor.ofBytes px)] ++ transformStream n (px.drop 3)

/-! ## The program (lines 60-151) -/

/-- The contents of the automatic objects `header`, `info` and `rgbIn` before anything is
read into them. The program does not initialise them. -/
structure Stack where
  header : List Byte
  info : List Byte
  rgbIn : List Byte
  deriving DecidableEq

/-- What a run leaves behind: the exit status, the diagnostic printed (if any), and the
bytes of the output file, `none` when the output stream was never created. -/
structure RunResult where
  exitCode : Nat
  error : Option FormatError
  output : Option (List Byte)
  deriving DecidableEq

/-- The conversion phase, lines 108-147, entered once the four checks have passed. -/
def convert (s : IStream) (rgb0 : List Byte) (header : BitmapFileHeader)
    (info : BitmapInfoHeader) : List Byte :=
  let s3 := s.seekg header.bitmap_offset
  let hs := deriveOutputHeaders header info
  let out0 := encodeHeaders hs.1 hs.2
  (imageLoop hs.2.width hs.2.height { input := s3, rgbIn := rgb0, out := out0 }).out

/-- The function `main`. `file` is `none` when the input file cannot be opened. -/
def main (stack : Stack) (file : Option (List Byte)) : RunResult :=
  match file with
  | none => { exitCode := 0, error := none, output := none }
  | some data =>
    let r1 := (IStream.opened data).read stack.header sizeofBitmapFileHeader
    let header := BitmapFileHeader.ofBytes r1.2
    match checkMagic header with
    | .error e => { exitCode := 1, error := some e, output := none }
    | .ok _ =>
      let r2 := r1.1.read stack.info sizeofBitmapInfoHeader
      let info := BitmapInfoHeader.ofBytes r2.2
      match validate info with
      | .error e => { exitCode := 1, error := some e, output := none }
      | .ok _ =>
        { exitCode := 0, error := none, output := some (convert r2.1 stack.rgbIn header info) }

/-- The file header as `main` sees it after the read of line 71: the bytes the file supplied,
over the first contents of the object. -/
def headerRead (stack : Stack) (data : List Byte) : BitmapFileHeader :=
  BitmapFileHeader.ofBytes ((IStream.opened data).read stack.header sizeofBitmapFileHeader).2

/-- The info header as `main` sees it after the read of line 79. -/
def infoRead (stack : Stack) (data : List Byte) : BitmapInfoHeader :=
  BitmapInfoHeader.ofBytes
    (((IStream.opened data).read stack.header sizeofBitmapFileHeader).1.read stack.info
      sizeofBitmapInfoHeader).2

/-! ## Sample inputs -/

/-- A stack whose three objects hold zero bytes. -/
def zeroStack : Stack :=
  { header := List.replicate 14 0, info := List.replicate 40 0, rgbIn := List.replicate 3 0 }

/-- The info header of a 2 x 2, 24-bit, uncompressed bitmap with 12 bytes of pixel data. -/
def sampleInfo : BitmapInfoHeader :=
  { size := 40, width := 2, height := 2, color_planes := 1, color_depth := 24, compression := 0,
    bitmap_size := 12, x_resolution := 2835, y_resolution := 2835, colors := 0,
    important_colors := 0 }

/-- The file header of a 66-byte bitmap whose pixel data starts at byte 54. -/
def sampleHeader : BitmapFileHeader :=
  { magic1 := 66, magic2 := 77, total_size := 66, reserved1 := 0, reserved2 := 0,
    bitmap_offset := 54 }

/-- A 2 x 2 bitmap of 66 bytes: the headers above and four samples. -/
def sampleFile : List Byte :=
  encodeHeaders sampleHeader sampleInfo ++ [255, 0, 0, 0, 255, 0, 0, 0, 255, 0, 1, 18]

/-- An info header the checks accept although its pixel data would not fit 32 bits:
3 * 2147483648 * 2 is 3 * 2 ^ 32, which is 0 in `uint32_t`. -/
def wrappedInfo : BitmapInfoHeader :=
  { size := 40, width := 2147483648, height := 2, color_planes := 1, color_depth := 24,
    compression := 0, bitmap_size := 0, x_resolution := 0, y_resolution := 0, colors := 0,
    important_colors := 0 }

/-- The sample bitmap cut off in the middle of its second sample: the headers still call for
2 x 2 samples, but only 5 bytes of pixel data follow them. -/
def truncatedFile : List Byte :=
  encodeHeaders sampleHeader sampleInfo ++ [255, 0, 0, 0, 255]

/-- A 54-byte input made of a file header and `wrappedInfo`. -/
def wrappedFile : List Byte :=
  encodeHeaders sampleHeader wrappedInfo

/-- The info header of a 1431655748 x 1 bitmap: its 4294967244 bytes of pixel data fit
32 bits, the 4294967298 bytes of the whole file do not. -/
def hugeInfo : BitmapInfoHeader :=
  { size := 40, width := 1431655748, height := 1, color_planes := 1, color_depth := 24,
    compression := 0, bitmap_size := 4294967244, x_resolution := 0, y_resolution := 0,
    colors := 0, important_colors := 0 }

/-- A complete 1431655748 x 1 bitmap, all of whose samples are black. -/
def hugeFile : List Byte :=
  encodeHeaders sampleHeader hugeInfo ++ List.replicate 4294967244 0

/-- A stack whose `header` object happens to hold 'B' (66), 'M' (77) in its first two bytes
before anything is read into it; the other bytes are zero. -/
def bmStack : Stack :=
  { header := [66, 77] ++ List.replicate 12 0, info := List.replicate 40 0,
    rgbIn := List.replicate 3 0 }

/-- The white sample. -/
def white : RGBColor := { red := 255, green := 255, blue := 255 }

/-- A 1 x 1 bitmap whose one sample is stored as the bytes 0, 5, 1. -/
def onePixelFile : List Byte :=
  encodeHeaders
    { magic1 := 66, magic2 := 77, total_size := 57, reserved1 := 0, reserved2 := 0,
      bitmap_offset := 54 }
    { size := 40, width := 1, height := 1, color_planes := 1, color_depth := 24,
      compression := 0, bitmap_size := 3, x_resolution := 0, y_resolution := 0,
      colors := 16777215, important_colors := 0 }
    ++ [0, 5, 1]

/-- An info header that fails all three checks at once: depth 8, compression BI_RLE8 and a
bitmap_size that is one more than 3 x 2 x 2. -/
def faultyInfo : BitmapInfoHeader :=
  { size := 40, width := 2, height := 2, color_planes := 1, color_depth := 8, compression := 1,
    bitmap_size := 13, x_resolution := 0, y_resolution := 0, colors := 0,
    important_colors := 0 }

/-- A 54-byte input with a good magic and `faultyInfo`. -/
def faultyFile : List Byte :=
  encodeHeaders sampleHeader faultyInfo

/-- A 54-byte input that starts with "XX" and carries `faultyInfo`. -/
def xxFile : List Byte :=
  encodeHeaders { sampleHeader with magic1 := 88, magic2 := 88 } faultyInfo

/-- The 41 byte values v for which the `double` sum 0.1 v + 0.6 v + 0.3 v comes out just
below v. -/
def grayDrops : List Byte :=
  [3, 6, 12, 23, 24, 29, 46, 48, 51, 53, 58, 63, 92, 96, 97, 101, 102, 106, 111, 116, 121, 126,
    184, 189, 192, 194, 197, 199, 202, 204, 207, 209, 212, 217, 222, 227, 232, 237, 242, 247, 252]

/-! ## Arithmetic lemmas -/

theorem u32_mul3 (w h : Nat) : u32 (u32 (3 * w) * h) = 3 * w * h % 4294967296 := by
  unfold u32
  rw [Nat.mul_mod, Nat.mod_mod, ← Nat.mul_mod]

/-- The three weights are `double` values (rounding leaves them unchanged) and each lies
within half a unit in the last place of its decimal literal: the last place of 0.1 is one
unit, that of 0.6 eight units, that of 0.3 four units. -/
theorem weights_nearest :
    roundDouble c01 = c01 ∧ roundDouble c06 = c06 ∧ roundDouble c03 = c03
      ∧ 10 * c01 = fpUnit + 4 ∧ 10 * c06 + 16 = 6 * fpUnit ∧ 10 * c03 + 8 = 3 * fpUnit := by
  decide

theorem excessBits_le (fuel : Nat) : ∀ n j : Nat, n < 2 ^ (53 + j) → excessBits fuel n ≤ j := by
  induction fuel with
  | zero => intro n j _; simp [excessBits]
  | succ f ih =>
    intro n j h
    unfold excessBits
    split_ifs with h1
    · exact Nat.zero_le _
    · cases j with
      | zero => exact absurd (by simpa using h) h1
      | succ j =>
        have h2 : n / 2 < 2 ^ (53 + j) := by
          have : 2 ^ (53 + (j + 1)) = 2 * 2 ^ (53 + j) := by
            rw [← Nat.add_assoc, Nat.pow_succ, Nat.mul_comm]
          omega
        have := ih (n / 2) j h2
        omega

theorem roundDouble_near (n : Nat) (h : n < 36893488147419103232) :
    roundDouble n ≤ n + 4096 ∧ n ≤ roundDouble n + 4096 := by
  have hk : excessBits n n ≤ 12 := excessBits_le n n 12 (by simpa using h)
  have hp : 2 ^ excessBits n n ≤ 4096 := by
    calc 2 ^ excessBits n n ≤ 2 ^ 12 := Nat.pow_le_pow_right (by decide) hk
      _ = 4096 := by norm_num
  have hp0 : 0 < 2 ^ excessBits n n := Nat.pow_pos (by decide)
  unfold roundDouble
  simp only []
  generalize 2 ^ excessBits n n = p at hp hp0
  have hdm : p * (n / p) + n % p = n := Nat.div_add_mod n p
  have hr : n % p < p := Nat.mod_lt n hp0
  have hc : n / p * p = p * (n / p) := Nat.mul_comm _ _
  have hc1 : (n / p + 1) * p = p * (n / p) + p := by ring
  rw [hc1, hc]
  generalize p * (n / p) = t at hdm
  split_ifs <;> omega

theorem weightedSum_near (color : RGBColor) :
    10 * weightedSum color + 16 * color.green.val + 8 * color.blue.val + 204800
        ≥ (color.red.val + 6 * color.green.val + 3 * color.blue.val) * fpUnit ∧
    10 * weightedSum color
        ≤ (color.red.val + 6 * color.green.val + 3 * color.blue.val) * fpUnit
          + 4 * color.red.val + 204800 := by
  obtain ⟨r, g, b⟩ := color
  have hr := r.isLt
  have hg := g.isLt
  have hb := b.isLt
  simp only [weightedSum, c01, c06, c03, fpUnit]
  have h1 := roundDouble_near (7205759403792794 * r.val) (by omega)
  have h2 := roundDouble_near (43234556422756760 * g.val) (by omega)
  have h3 := roundDouble_near (21617278211378380 * b.val) (by omega)
  generalize roundDouble (7205759403792794 * r.val) = x1 at h1 ⊢
  generalize roundDouble (43234556422756760 * g.val) = x2 at h2 ⊢
  generalize roundDouble (21617278211378380 * b.val) = x3 at h3 ⊢
  have h4 := roundDouble_near (x1 + x2) (by omega)
  generalize roundDouble (x1 + x2) = x4 at h4 ⊢
  have h5 := roundDouble_near (x4 + x3) (by omega)
  generalize roundDouble (x4 + x3) = x5 at h5 ⊢
  omega

/-! ## Stream, overlay and loop lemmas -/

theorem byteAt_append_left (a b : List Byte) (i : Nat) (h : i < a.length) :
    byteAt (a ++ b) i = byteAt a i := by
  unfold byteAt
  rw [List.getD_append _ _ _ _ h]

theorem byteAt_take (l : List Byte) (n i : Nat) (h : i < n) :
    byteAt (l.take n) i = byteAt l i := by
  unfold byteAt
  simp [List.getD_eq_getElem?_getD, List.getElem?_take, h]

theorem byteAt_drop (l : List Byte) (n i : Nat) :
    byteAt (l.drop n) i = byteAt l (n + i) := by
  unfold byteAt
  simp [List.getD_eq_getElem?_getD, List.getElem?_drop]

theorem read_good (data : List Byte) (pos : Nat) (buf : List Byte) (n : Nat)
    (h : pos + n ≤ data.length) :
    IStream.read { data := data, pos := pos, eofbit := false, failbit := false } buf n
      = ({ data := data, pos := pos + n, eofbit := false, failbit := false },
          (data.drop pos).take n ++ buf.drop n) := by
  have hl : ((data.drop pos).take n).length = n := by
    rw [List.length_take, List.length_drop]; omega
  simp [IStream.read, hl]


theorem fileHeader_ofBytes_append (a b : List Byte) (h : 14 ≤ a.length) :
    BitmapFileHeader.ofBytes (a ++ b) = BitmapFileHeader.ofBytes a := by
  have key : ∀ i, i < 14 → byteAt (a ++ b) i = byteAt a i :=
    fun i hi => byteAt_append_left a b i (by omega)
  unfold BitmapFileHeader.ofBytes
  simp only [key 0 (by decide), key 1 (by decide), key 2 (by decide), key 3 (by decide),
    key 4 (by decide), key 5 (by decide), key 6 (by decide), key 7 (by decide),
    key 8 (by decide), key 9 (by decide), key 10 (by decide), key 11 (by decide),
    key 12 (by decide), key 13 (by decide)]

theorem infoHeader_ofBytes_append (a b : List Byte) (h : 40 ≤ a.length) :
    BitmapInfoHeader.ofBytes (a ++ b) = BitmapInfoHeader.ofBytes a := by
  have key : ∀ i, i < 40 → byteAt (a ++ b) i = byteAt a i :=
    fun i hi => byteAt_append_left a b i (by omega)
  unfold BitmapInfoHeader.ofBytes
  simp only [key 0 (by decide), key 1 (by decide), key 2 (by decide), key 3 (by decide),
    key 4 (by decide), key 5 (by decide), key 6 (by decide), key 7 (by decide),
    key 8 (by decide), key 9 (by decide), key 10 (by decide), key 11 (by decide),
    key 12 (by decide), key 13 (by decide), key 14 (by decide), key 15 (by decide),
    key 16 (by decide), key 17 (by decide), key 18 (by decide), key 19 (by decide),
    key 20 (by decide), key 21 (by decide), key 22 (by decide), key 23 (by decide),
    key 24 (by decide), key 25 (by decide), key 26 (by decide), key 27 (by decide),
    key 28 (by decide), key 29 (by decide), key 30 (by decide), key 31 (by decide),
    key 32 (by decide), key 33 (by decide), key 34 (by decide), key 35 (by decide),
    key 36 (by decide), key 37 (by decide), key 38 (by decide), key 39 (by decide)]

theorem rgb_ofBytes_read (l buf : List Byte) :
    RGBColor.ofBytes (l.take 3 ++ buf) = RGBColor.ofBytes l ∨ l.length < 3 := by
  by_cases h : l.length < 3
  · exact Or.inr h
  · left
    have hl : (l.take 3).length = 3 := by rw [List.length_take]; omega
    unfold RGBColor.ofBytes
    rw [byteAt_append_left _ _ 0 (by omega), byteAt_append_left _ _ 1 (by omega),
      byteAt_append_left _ _ 2 (by omega), byteAt_take _ _ _ (by omega),
      byteAt_take _ _ _ (by omega), byteAt_take _ _ _ (by omega)]

/-- The run on an input that passes validation. -/
theorem main_of_valid (stack : Stack) (data : List Byte) (h : PassesValidation data) :
    main stack (some data) =
      { exitCode := 0, error := none,
        output := some (convert
          { data := data, pos := 54, eofbit := false, failbit := false }
          stack.rgbIn (fileHeaderOf data) (infoHeaderOf data)) } := by
  obtain ⟨hlen, hmagic, hval⟩ := h
  simp only [sizeofBitmapFileHeader, sizeofBitmapInfoHeader] at hlen
  have h1 : (IStream.opened data).read stack.header sizeofBitmapFileHeader
      = ({ data := data, pos := 14, eofbit := false, failbit := false },
          data.take 14 ++ stack.header.drop 14) := by
    have := read_good data 0 stack.header 14 (by omega)
    simpa [IStream.opened, sizeofBitmapFileHeader] using this
  have h2 : IStream.read { data := data, pos := 14, eofbit := false, failbit := false }
      stack.info sizeofBitmapInfoHeader
      = ({ data := data, pos := 54, eofbit := false, failbit := false },
          (data.drop 14).take 40 ++ stack.info.drop 40) := by
    have := read_good data 14 stack.info 40 (by omega)
    simpa [sizeofBitmapInfoHeader] using this
  have e1 : BitmapFileHeader.ofBytes (data.take 14 ++ stack.header.drop 14) = fileHeaderOf data :=
    fileHeader_ofBytes_append _ _ (by rw [List.length_take]; omega)
  have e2 : BitmapInfoHeader.ofBytes ((data.drop 14).take 40 ++ stack.info.drop 40)
      = infoHeaderOf data :=
    infoHeader_ofBytes_append _ _ (by rw [List.length_take, List.length_drop]; omega)
  simp only [main, h1, h2, e1, e2, hmagic, hval]

theorem pixelStep_out (st : LoopState) :
    ∃ g : Byte, (pixelStep st).out = st.out ++ [g, g, g] :=
  ⟨_, rfl⟩

theorem rowLoop_out_length : ∀ (n : Nat) (st : LoopState),
    (rowLoop n st).out.length = st.out.length + 3 * n := by
  intro n
  induction n with
  | zero => intro st; rfl
  | succ n ih =>
    intro st
    obtain ⟨g, hg⟩ := pixelStep_out st
    rw [rowLoop, ih, hg, List.length_append]
    simp only [List.length_cons, List.length_nil]
    omega

theorem imageLoop_out_length (w : Nat) : ∀ (h : Nat) (st : LoopState),
    (imageLoop w h st).out.length = st.out.length + 3 * (w * h) := by
  intro h
  induction h with
  | zero => intro st; rfl
  | succ n ih =>
    intro st
    rw [imageLoop, ih, rowLoop_out_length, Nat.mul_succ]
    omega

theorem rowLoop_out_extends : ∀ (n : Nat) (st : LoopState),
    ∃ px : List Byte, (rowLoop n st).out = st.out ++ px := by
  intro n
  induction n with
  | zero => intro st; exact ⟨[], by simp [rowLoop]⟩
  | succ n ih =>
    intro st
    obtain ⟨g, hg⟩ := pixelStep_out st
    obtain ⟨px, hpx⟩ := ih (pixelStep st)
    exact ⟨[g, g, g] ++ px, by rw [rowLoop, hpx, hg, List.append_assoc]⟩

theorem imageLoop_out_extends (w : Nat) : ∀ (h : Nat) (st : LoopState),
    ∃ px : List Byte, (imageLoop w h st).out = st.out ++ px := by
  intro h
  induction h with
  | zero => intro st; exact ⟨[], by simp [imageLoop]⟩
  | succ n ih =>
    intro st
    obtain ⟨p1, h1⟩ := rowLoop_out_extends w st
    obtain ⟨p2, h2⟩ := ih (rowLoop w st)
    exact ⟨p1 ++ p2, by rw [imageLoop, h2, h1, List.append_assoc]⟩

theorem encodeHeaders_length (header : BitmapFileHeader) (info : BitmapInfoHeader) :
    (encodeHeaders header info).length = 54 := rfl

theorem deriveOutputHeaders_dims (header : BitmapFileHeader) (info : BitmapInfoHeader) :
    (deriveOutputHeaders header info).2.width = info.width
      ∧ (deriveOutputHeaders header info).2.height = info.height :=
  ⟨rfl, rfl⟩

/-- Shape of the output of the conversion phase, whatever the stream holds. -/
theorem convert_shape (s : IStream) (rgb0 : List Byte) (header : BitmapFileHeader)
    (info : BitmapInfoHeader) :
    ∃ px : List Byte,
      convert s rgb0 header info
        = encodeHeaders (deriveOutputHeaders header info).1 (deriveOutputHeaders header info).2
            ++ px
      ∧ px.length = 3 * (info.width * info.height) := by
  obtain ⟨px, hpx⟩ := imageLoop_out_extends (deriveOutputHeaders header info).2.width
    (deriveOutputHeaders header info).2.height
    { input := s.seekg header.bitmap_offset, rgbIn := rgb0,
      out := encodeHeaders (deriveOutputHeaders header info).1 (deriveOutputHeaders header info).2 }
  have hlen := imageLoop_out_length (deriveOutputHeaders header info).2.width
    (deriveOutputHeaders header info).2.height
    { input := s.seekg header.bitmap_offset, rgbIn := rgb0,
      out := encodeHeaders (deriveOutputHeaders header info).1 (deriveOutputHeaders header info).2 }
  refine ⟨px, hpx, ?_⟩
  rw [hpx, List.length_append] at hlen
  rw [(deriveOutputHeaders_dims header info).1, (deriveOutputHeaders_dims header info).2] at hlen
  omega


theorem pixelStep_good (data : List Byte) (pos : Nat) (rgb out : List Byte)
    (h : pos + 3 ≤ data.length) :
    pixelStep { input := { data := data, pos := pos, eofbit := false, failbit := false },
                rgbIn := rgb, out := out }
      = { input := { data := data, pos := pos + 3, eofbit := false, failbit := false },
          rgbIn := (data.drop pos).take 3 ++ rgb.drop 3,
          out := out ++ transformStream 1 (data.drop pos) } := by
  have hr := read_good data pos rgb 3 h
  have hc : RGBColor.ofBytes ((data.drop pos).take 3 ++ rgb.drop 3)
      = RGBColor.ofBytes (data.drop pos) := by
    rcases rgb_ofBytes_read (data.drop pos) (rgb.drop 3) with h1 | h1
    · exact h1
    · rw [List.length_drop] at h1; omega
  simp only [pixelStep, sizeofRGBColor, hr, hc, transformStream, RGBColor.toBytes,
    List.append_nil]

theorem transformStream_add : ∀ (a b : Nat) (px : List Byte),
    transformStream (a + b) px = transformStream a px ++ transformStream b (px.drop (3 * a)) := by
  intro a
  induction a with
  | zero => intro b px; simp [transformStream]
  | succ a ih =>
    intro b px
    have e : 3 + 3 * a = 3 * (a + 1) := by ring
    rw [Nat.succ_add, transformStream, transformStream, ih, List.drop_drop, e,
      List.append_assoc]

theorem rowLoop_good (data : List Byte) : ∀ (n pos : Nat) (rgb out : List Byte),
    pos + 3 * n ≤ data.length →
    ∃ rgb1 : List Byte,
      rowLoop n { input := { data := data, pos := pos, eofbit := false, failbit := false },
                  rgbIn := rgb, out := out }
        = { input := { data := data, pos := pos + 3 * n, eofbit := false, failbit := false },
            rgbIn := rgb1, out := out ++ transformStream n (data.drop pos) } := by
  intro n
  induction n with
  | zero => intro pos rgb out _; exact ⟨rgb, by simp [rowLoop, transformStream]⟩
  | succ n ih =>
    intro pos rgb out h
    obtain ⟨rgb1, h1⟩ := ih (pos + 3) ((data.drop pos).take 3 ++ rgb.drop 3)
      (out ++ transformStream 1 (data.drop pos)) (by omega)
    refine ⟨rgb1, ?_⟩
    rw [rowLoop, pixelStep_good data pos rgb out (by omega), h1]
    have e : 1 + n = n + 1 := Nat.add_comm 1 n
    have t := transformStream_add 1 n (data.drop pos)
    rw [e, List.drop_drop] at t
    have e3 : pos + 3 + 3 * n = pos + 3 * (n + 1) := by ring
    have e4 : pos + 3 * 1 = pos + 3 := by ring
    rw [e4] at t
    rw [t, List.append_assoc, e3]

theorem imageLoop_good (data : List Byte) (w : Nat) : ∀ (h pos : Nat) (rgb out : List Byte),
    pos + 3 * (w * h) ≤ data.length →
    ∃ rgb1 : List Byte,
      imageLoop w h { input := { data := data, pos := pos, eofbit := false, failbit := false },
                      rgbIn := rgb, out := out }
        = { input := { data := data, pos := pos + 3 * (w * h), eofbit := false,
                       failbit := false },
            rgbIn := rgb1, out := out ++ transformStream (w * h) (data.drop pos) } := by
  intro h
  induction h with
  | zero => intro pos rgb out _; exact ⟨rgb, by simp [imageLoop, transformStream]⟩
  | succ n ih =>
    intro pos rgb out hb
    have hm : w * (n + 1) = w + w * n := by ring
    obtain ⟨rgb1, h1⟩ := rowLoop_good data w pos rgb out (by rw [hm] at hb; omega)
    obtain ⟨rgb2, h2⟩ := ih (pos + 3 * w) rgb1 (out ++ transformStream w (data.drop pos))
      (by rw [hm] at hb; omega)
    refine ⟨rgb2, ?_⟩
    rw [imageLoop, h1, h2, hm, transformStream_add, List.drop_drop, List.append_assoc]
    have e3 : pos + 3 * w + 3 * (w * n) = pos + 3 * (w + w * n) := by ring
    rw [e3]

theorem transformStream_length : ∀ (n : Nat) (px : List Byte),
    (transformStream n px).length = 3 * n := by
  intro n
  induction n with
  | zero => intro px; rfl
  | succ n ih =>
    intro px
    rw [transformStream, List.length_append, ih]
    simp only [List.length_cons, List.length_nil]
    omega

theorem transformStream_byteAt : ∀ (n : Nat) (px : List Byte) (k c : Nat), k < n → c < 3 →
    byteAt (transformStream n px) (3 * k + c) = grayscale (RGBColor.ofBytes (px.drop (3 * k))) := by
  intro n
  induction n with
  | zero => intro px k c hk; omega
  | succ n ih =>
    intro px k c hk hc
    rw [transformStream]
    cases k with
    | zero =>
      rw [byteAt_append_left _ _ _ (by simpa using hc)]
      have hc3 : c = 0 ∨ c = 1 ∨ c = 2 := by omega
      rcases hc3 with rfl | rfl | rfl <;> simp [byteAt]
    | succ k =>
      have hi := ih (px.drop 3) k c (by omega) hc
      rw [List.drop_drop] at hi
      have e : 3 * (k + 1) + c = 3 + (3 * k + c) := by ring
      have e2 : 3 + 3 * k = 3 * (k + 1) := by ring
      rw [e2] at hi
      rw [← hi, e]
      unfold byteAt
      have e5 : 3 + (3 * k + c) = (3 * k + c) + 1 + 1 + 1 := by ring
      rw [e5]
      simp only [List.cons_append, List.nil_append, List.getD_cons_succ]

theorem rgb_ofBytes_drop (data : List Byte) (m : Nat) :
    RGBColor.ofBytes (data.drop m)
      = { red := byteAt data m, green := byteAt data (m + 1), blue := byteAt data (m + 2) } := by
  unfold RGBColor.ofBytes
  rw [byteAt_drop, byteAt_drop, byteAt_drop]
  rfl

theorem validate_ne_badMagic (info : BitmapInfoHeader) :
    validate info ≠ .error .BadMagic := by
  unfold validate
  split_ifs <;> simp

theorem read_header_magic (stack : Stack) (b0 b1 : Byte) (rest : List Byte) :
    (BitmapFileHeader.ofBytes
      ((IStream.opened (b0 :: b1 :: rest)).read stack.header sizeofBitmapFileHeader).2).magic1
        = b0.val
    ∧ (BitmapFileHeader.ofBytes
      ((IStream.opened (b0 :: b1 :: rest)).read stack.header sizeofBitmapFileHeader).2).magic2
        = b1.val := by
  simp only [IStream.opened, IStream.read, sizeofBitmapFileHeader, BitmapFileHeader.ofBytes]
  constructor <;> (split_ifs <;> simp_all [byteAt])

theorem checkMagic_eq (header : BitmapFileHeader) :
    checkMagic header = (if header.magic1 = 66 ∧ header.magic2 = 77 then .ok () else .error .BadMagic) := by
  unfold checkMagic
  split_ifs <;> first | rfl | omega

theorem grayscale_val (color : RGBColor) :
    (grayscale color).val = weightedSum color / fpUnit := by
  have h := weightedSum_near color
  have hr := color.red.isLt
  have hg := color.green.isLt
  have hb := color.blue.isLt
  simp only [fpUnit] at h
  show weightedSum color / fpUnit % 256 = weightedSum color / fpUnit
  simp only [fpUnit]
  omega

theorem toByte_val (b : Byte) : toByte b.val = b := by
  apply Fin.ext
  show b.val % 256 = b.val
  exact Nat.mod_eq_of_lt b.isLt

theorem enc16_le16 (a b : Byte) : enc16 (le16 a b) = [a, b] := by
  have ha := a.isLt
  have hb := b.isLt
  have e0 : toByte (le16 a b) = a := by
    apply Fin.ext
    show (a.val + 256 * b.val) % 256 = a.val
    omega
  have e1 : toByte (le16 a b / 256) = b := by
    apply Fin.ext
    show (a.val + 256 * b.val) / 256 % 256 = b.val
    omega
  simp only [enc16, e0, e1]

theorem enc32_le32 (a b c d : Byte) : enc32 (le32 a b c d) = [a, b, c, d] := by
  have ha := a.isLt
  have hb := b.isLt
  have hc := c.isLt
  have hd := d.isLt
  have e0 : toByte (le32 a b c d) = a := by
    apply Fin.ext
    show (a.val + 256 * b.val + 65536 * c.val + 16777216 * d.val) % 256 = a.val
    omega
  have e1 : toByte (le32 a b c d / 256) = b := by
    apply Fin.ext
    show (a.val + 256 * b.val + 65536 * c.val + 16777216 * d.val) / 256 % 256 = b.val
    omega
  have e2 : toByte (le32 a b c d / 65536) = c := by
    apply Fin.ext
    show (a.val + 256 * b.val + 65536 * c.val + 16777216 * d.val) / 65536 % 256 = c.val
    omega
  have e3 : toByte (le32 a b c d / 16777216) = d := by
    apply Fin.ext
    show (a.val + 256 * b.val + 65536 * c.val + 16777216 * d.val) / 16777216 % 256 = d.val
    omega
  simp only [enc32, e0, e1, e2, e3]

theorem le16_enc16 (n : Nat) : le16 (toByte n) (toByte (n / 256)) = n % 65536 := by
  show n % 256 + 256 * (n / 256 % 256) = n % 65536
  omega

theorem le32_enc32 (n : Nat) :
    le32 (toByte n) (toByte (n / 256)) (toByte (n / 65536)) (toByte (n / 16777216))
      = n % 4294967296 := by
  show n % 256 + 256 * (n / 256 % 256) + 65536 * (n / 65536 % 256)
    + 16777216 * (n / 16777216 % 256) = n % 4294967296
  omega

theorem fileHeader_toBytes_ofBytes (m : List Byte) (h : m.length = 14) :
    (BitmapFileHeader.ofBytes m).toBytes = m := by
  match m, h with
  | [b0, b1, b2, b3, b4, b5, b6, b7, b8, b9, b10, b11, b12, b13], _ =>
    simp only [BitmapFileHeader.ofBytes, BitmapFileHeader.toBytes, byteAt, List.getD_cons_zero,
      List.getD_cons_succ, enc32_le32, enc16_le16, toByte_val, List.cons_append, List.nil_append]


theorem infoHeader_toBytes_ofBytes (m : List Byte) (h : m.length = 40) :
    (BitmapInfoHeader.ofBytes m).toBytes = m := by
  match m, h with
  | b0 :: b1 :: b2 :: b3 :: b4 :: b5 :: b6 :: b7 :: b8 :: b9 :: b10 :: b11 :: b12 :: b13
      :: b14 :: b15 :: b16 :: b17 :: b18 :: b19 :: b20 :: b21 :: b22 :: b23 :: b24 :: b25
      :: b26 :: b27 :: b28 :: b29 :: b30 :: b31 :: b32 :: b33 :: b34 :: b35 :: b36 :: b37
      :: b38 :: b39 :: [], _ =>
    simp only [BitmapInfoHeader.ofBytes, BitmapInfoHeader.toBytes, byteAt, List.getD_cons_zero,
      List.getD_cons_succ, enc32_le32, enc16_le16, List.cons_append, List.nil_append]

theorem fileHeader_toBytes_length (h : BitmapFileHeader) : h.toBytes.length = 14 := rfl

theorem infoHeader_toBytes_length (i : BitmapInfoHeader) : i.toBytes.length = 40 := rfl

theorem fileHeader_ofBytes_toBytes (h : BitmapFileHeader) :
    BitmapFileHeader.ofBytes h.toBytes
      = { magic1 := h.magic1 % 256, magic2 := h.magic2 % 256,
          total_size := h.total_size % 4294967296, reserved1 := h.reserved1 % 65536,
          reserved2 := h.reserved2 % 65536, bitmap_offset := h.bitmap_offset % 4294967296 } := by
  simp only [BitmapFileHeader.ofBytes, BitmapFileHeader.toBytes, enc32, enc16, byteAt,
    List.cons_append, List.nil_append, List.getD_cons_zero, List.getD_cons_succ, le32_enc32,
    le16_enc16]
  rfl

theorem infoHeader_ofBytes_toBytes (i : BitmapInfoHeader) :
    BitmapInfoHeader.ofBytes i.toBytes
      = { size := i.size % 4294967296, width := i.width % 4294967296,
          height := i.height % 4294967296, color_planes := i.color_planes % 65536,
          color_depth := i.color_depth % 65536, compression := i.compression % 4294967296,
          bitmap_size := i.bitmap_size % 4294967296,
          x_resolution := i.x_resolution % 4294967296,
          y_resolution := i.y_resolution % 4294967296, colors := i.colors % 4294967296,
          important_colors := i.important_colors % 4294967296 } := by
  simp only [BitmapInfoHeader.ofBytes, BitmapInfoHeader.toBytes, enc32, enc16, byteAt,
    List.cons_append, List.nil_append, List.getD_cons_zero, List.getD_cons_succ, le32_enc32,
    le16_enc16]

theorem fileHeaderOf_encode (h : BitmapFileHeader) (i : BitmapInfoHeader) (px : List Byte) :
    fileHeaderOf (encodeHeaders h i ++ px) = BitmapFileHeader.ofBytes h.toBytes := by
  unfold fileHeaderOf encodeHeaders sizeofBitmapFileHeader
  rw [List.append_assoc, List.take_left' (fileHeader_toBytes_length h)]

theorem infoHeaderOf_encode (h : BitmapFileHeader) (i : BitmapInfoHeader) (px : List Byte) :
    infoHeaderOf (encodeHeaders h i ++ px) = BitmapInfoHeader.ofBytes i.toBytes := by
  unfold infoHeaderOf encodeHeaders sizeofBitmapFileHeader sizeofBitmapInfoHeader
  rw [List.append_assoc, List.drop_left' (fileHeader_toBytes_length h),
    List.take_left' (infoHeader_toBytes_length i)]

theorem byteAt_append_right (a b : List Byte) (i : Nat) :
    byteAt (a ++ b) (a.length + i) = byteAt b i := by
  unfold byteAt
  simp [List.getD_eq_getElem?_getD, List.getElem?_append_right]

/-- The output of the run on an input that passes validation: the derived headers followed
by three bytes for each of the width x height samples. -/
theorem main_output_shape (stack : Stack) (data : List Byte) (h : PassesValidation data) :
    ∃ px : List Byte,
      main stack (some data) =
        { exitCode := 0, error := none,
          output := some (encodeHeaders
            (deriveOutputHeaders (fileHeaderOf data) (infoHeaderOf data)).1
            (deriveOutputHeaders (fileHeaderOf data) (infoHeaderOf data)).2 ++ px) }
      ∧ px.length = 3 * ((infoHeaderOf data).width * (infoHeaderOf data).height) := by
  obtain ⟨px, h1, h2⟩ := convert_shape
    { data := data, pos := 54, eofbit := false, failbit := false } stack.rgbIn
    (fileHeaderOf data) (infoHeaderOf data)
  exact ⟨px, by rw [main_of_valid stack data h, h1], h2⟩

/-- The output of the run on an input that passes validation and holds all the samples its
dimensions call for. -/
theorem main_output_complete (stack : Stack) (data : List Byte) (h : PassesValidation data)
    (hlen : (fileHeaderOf data).bitmap_offset
      + 3 * ((infoHeaderOf data).width * (infoHeaderOf data).height) ≤ data.length) :
    (main stack (some data)).output
      = some (encodeHeaders
          (deriveOutputHeaders (fileHeaderOf data) (infoHeaderOf data)).1
          (deriveOutputHeaders (fileHeaderOf data) (infoHeaderOf data)).2
        ++ transformStream ((infoHeaderOf data).width * (infoHeaderOf data).height)
            (data.drop (fileHeaderOf data).bitmap_offset)) := by
  rw [main_of_valid stack data h]
  obtain ⟨rgb1, h1⟩ := imageLoop_good data (infoHeaderOf data).width (infoHeaderOf data).height
    (fileHeaderOf data).bitmap_offset stack.rgbIn
    (encodeHeaders (deriveOutputHeaders (fileHeaderOf data) (infoHeaderOf data)).1
      (deriveOutputHeaders (fileHeaderOf data) (infoHeaderOf data)).2) hlen
  simp only [convert, IStream.seekg, (deriveOutputHeaders_dims _ _).1,
    (deriveOutputHeaders_dims _ _).2]
  simp only [Bool.false_eq_true, if_false, h1]

theorem derived_bitmap_size (header : BitmapFileHeader) (info : BitmapInfoHeader) :
    (deriveOutputHeaders header info).2.bitmap_size = 3 * info.width * info.height % 4294967296 :=
  u32_mul3 info.width info.height

theorem derived_total_size (header : BitmapFileHeader) (info : BitmapInfoHeader) :
    (deriveOutputHeaders header info).1.total_size
      = (54 + 3 * (info.width * info.height)) % 4294967296 := by
  show u32 (sizeofBitmapFileHeader + sizeofBitmapInfoHeader + u32 (u32 (3 * info.width) * info.height))
    = _
  rw [u32_mul3, Nat.mul_assoc]
  simp only [u32, sizeofBitmapFileHeader, sizeofBitmapInfoHeader]
  omega

theorem fileHeaderOf_append (a b : List Byte) (h : 14 ≤ a.length) :
    fileHeaderOf (a ++ b) = fileHeaderOf a := by
  unfold fileHeaderOf sizeofBitmapFileHeader
  rw [List.take_append_of_le_length h]

theorem infoHeaderOf_append (a b : List Byte) (h : 54 ≤ a.length) :
    infoHeaderOf (a ++ b) = infoHeaderOf a := by
  unfold infoHeaderOf sizeofBitmapFileHeader sizeofBitmapInfoHeader
  rw [List.drop_append_of_le_length (by omega),
    List.take_append_of_le_length (by rw [List.length_drop]; omega)]

theorem hugeFile_headers :
    fileHeaderOf hugeFile = sampleHeader ∧ infoHeaderOf hugeFile = hugeInfo
      ∧ hugeFile.length = 4294967298 := by
  refine ⟨?_, ?_, ?_⟩
  · unfold hugeFile
    rw [fileHeaderOf_append _ _ (by decide)]
    decide
  · unfold hugeFile
    rw [infoHeaderOf_append _ _ (by decide)]
    decide
  · unfold hugeFile
    rw [List.length_append, List.length_replicate, encodeHeaders_length]

/-! ## Further lemmas: outcomes of a run, rounding is monotone -/

/-- The run, by the outcome of the four checks on the headers as read. -/
theorem main_some (stack : Stack) (data : List Byte) :
    main stack (some data) =
      match checkMagic (headerRead stack data) with
      | .error e => { exitCode := 1, error := some e, output := none }
      | .ok _ =>
        match validate (infoRead stack data) with
        | .error e => { exitCode := 1, error := some e, output := none }
        | .ok _ =>
          { exitCode := 0, error := none,
            output := some (convert
              (((IStream.opened data).read stack.header sizeofBitmapFileHeader).1.read
                stack.info sizeofBitmapInfoHeader).1
              stack.rgbIn (headerRead stack data) (infoRead stack data)) } :=
  rfl

theorem headerRead_eq (stack : Stack) (data : List Byte) (h : 54 ≤ data.length) :
    headerRead stack data = fileHeaderOf data ∧ infoRead stack data = infoHeaderOf data := by
  have h1 : (IStream.opened data).read stack.header sizeofBitmapFileHeader
      = ({ data := data, pos := 14, eofbit := false, failbit := false },
          data.take 14 ++ stack.header.drop 14) := by
    have := read_good data 0 stack.header 14 (by omega)
    simpa [IStream.opened, sizeofBitmapFileHeader] using this
  have h2 : IStream.read { data := data, pos := 14, eofbit := false, failbit := false }
      stack.info sizeofBitmapInfoHeader
      = ({ data := data, pos := 54, eofbit := false, failbit := false },
          (data.drop 14).take 40 ++ stack.info.drop 40) := by
    have := read_good data 14 stack.info 40 (by omega)
    simpa [sizeofBitmapInfoHeader] using this
  constructor
  · unfold headerRead
    rw [h1]
    exact fileHeader_ofBytes_append _ _ (by rw [List.length_take]; omega)
  · unfold infoRead
    rw [h1, h2]
    exact infoHeader_ofBytes_append _ _ (by rw [List.length_take, List.length_drop]; omega)

theorem checkMagic_cases (header : BitmapFileHeader) :
    checkMagic header = .ok () ∨ checkMagic header = .error .BadMagic := by
  unfold checkMagic
  split_ifs
  · exact Or.inr rfl
  · exact Or.inl rfl

theorem validate_cases (info : BitmapInfoHeader) :
    validate info = .ok () ∨ validate info = .error .UnsupportedColorDepth
      ∨ validate info = .error .UnsupportedCompression
      ∨ validate info = .error .SizeMismatch := by
  unfold validate
  split_ifs <;> simp

/-- The result of a run on a file that could be opened, by cases on the checks. -/
theorem main_outcomes (stack : Stack) (data : List Byte) :
    (checkMagic (headerRead stack data) = .error .BadMagic
        ∧ main stack (some data) = { exitCode := 1, error := some .BadMagic, output := none })
    ∨ (checkMagic (headerRead stack data) = .ok ()
        ∧ ∃ e, validate (infoRead stack data) = .error e
          ∧ main stack (some data) = { exitCode := 1, error := some e, output := none })
    ∨ (checkMagic (headerRead stack data) = .ok ()
        ∧ validate (infoRead stack data) = .ok ()
        ∧ ∃ out, main stack (some data) = { exitCode := 0, error := none, output := some out }) := by
  rw [main_some]
  rcases checkMagic_cases (headerRead stack data) with hm | hm
  · right
    rw [hm]
    cases hv : validate (infoRead stack data) with
    | error e => exact Or.inl ⟨rfl, e, rfl, rfl⟩
    | ok u => exact Or.inr ⟨rfl, rfl, _, rfl⟩
  · left
    rw [hm]
    exact ⟨rfl, rfl⟩

theorem le16_lt (a b : Byte) : le16 a b < 65536 := by
  have ha := a.isLt
  have hb := b.isLt
  unfold le16
  omega

theorem le32_lt (a b c d : Byte) : le32 a b c d < 4294967296 := by
  have ha := a.isLt
  have hb := b.isLt
  have hc := c.isLt
  have hd := d.isLt
  unfold le32
  omega

theorem deriveOutputHeaders_idem (header : BitmapFileHeader) (info : BitmapInfoHeader) :
    deriveOutputHeaders (deriveOutputHeaders header info).1 (deriveOutputHeaders header info).2
      = deriveOutputHeaders header info :=
  rfl

/-- The derived headers of a decoded pair survive being written and read back. -/
theorem derived_reread (data px : List Byte) :
    fileHeaderOf (encodeHeaders
        (deriveOutputHeaders (fileHeaderOf data) (infoHeaderOf data)).1
        (deriveOutputHeaders (fileHeaderOf data) (infoHeaderOf data)).2 ++ px)
      = (deriveOutputHeaders (fileHeaderOf data) (infoHeaderOf data)).1
    ∧ infoHeaderOf (encodeHeaders
        (deriveOutputHeaders (fileHeaderOf data) (infoHeaderOf data)).1
        (deriveOutputHeaders (fileHeaderOf data) (infoHeaderOf data)).2 ++ px)
      = (deriveOutputHeaders (fileHeaderOf data) (infoHeaderOf data)).2 := by
  have hb : ∀ b : Byte, b.val % 256 = b.val := fun b => Nat.mod_eq_of_lt b.isLt
  have h16 : ∀ a b : Byte, le16 a b % 65536 = le16 a b :=
    fun a b => Nat.mod_eq_of_lt (le16_lt a b)
  have h32 : ∀ a b c d : Byte, le32 a b c d % 4294967296 = le32 a b c d :=
    fun a b c d => Nat.mod_eq_of_lt (le32_lt a b c d)
  have hu : ∀ n : Nat, u32 n % 4294967296 = u32 n := fun n => Nat.mod_mod _ _
  constructor
  · rw [fileHeaderOf_encode, fileHeader_ofBytes_toBytes]
    simp only [deriveOutputHeaders, fileHeaderOf, BitmapFileHeader.ofBytes, hb, h16, hu]
  · rw [infoHeaderOf_encode, infoHeader_ofBytes_toBytes]
    simp only [deriveOutputHeaders, infoHeaderOf, BitmapInfoHeader.ofBytes, h16, h32, hu]
    rfl

theorem excessBits_spec (fuel : Nat) : ∀ n : Nat, n ≤ fuel →
    n < 9007199254740992 * 2 ^ excessBits fuel n
      ∧ (excessBits fuel n = 0 ∨ 4503599627370496 * 2 ^ excessBits fuel n ≤ n) := by
  induction fuel with
  | zero =>
    intro n hn
    have : n = 0 := by omega
    subst this
    simp [excessBits]
  | succ f ih =>
    intro n hn
    unfold excessBits
    split_ifs with h1
    · exact ⟨by simpa using h1, Or.inl rfl⟩
    · obtain ⟨a, b⟩ := ih (n / 2) (by omega)
      rw [Nat.pow_succ]
      refine ⟨by omega, Or.inr ?_⟩
      rcases b with b | b
      · rw [b]
        simp only [pow_zero]
        omega
      · omega

theorem roundDouble_bounds (n : Nat) :
    n / 2 ^ excessBits n n * 2 ^ excessBits n n ≤ roundDouble n
      ∧ roundDouble n ≤ (n / 2 ^ excessBits n n + 1) * 2 ^ excessBits n n := by
  unfold roundDouble
  simp only []
  generalize 2 ^ excessBits n n = p
  have hc1 : (n / p + 1) * p = n / p * p + p := by ring
  rw [hc1]
  split_ifs <;> omega

theorem roundDouble_mono (n m : Nat) (h : n ≤ m) : roundDouble n ≤ roundDouble m := by
  obtain ⟨n1, n2⟩ := excessBits_spec n n (Nat.le_refl n)
  obtain ⟨m1, m2⟩ := excessBits_spec m m (Nat.le_refl m)
  obtain ⟨bn1, bn2⟩ := roundDouble_bounds n
  obtain ⟨bm1, bm2⟩ := roundDouble_bounds m
  have hpn : 0 < 2 ^ excessBits n n := Nat.pow_pos (by decide)
  have hpm : 0 < 2 ^ excessBits m m := Nat.pow_pos (by decide)
  rcases Nat.lt_trichotomy (excessBits n n) (excessBits m m) with hk | hk | hk
  · -- the result for n stays below the binade of m
    have hp : 2 * 2 ^ excessBits n n ≤ 2 ^ excessBits m m := by
      have := Nat.pow_le_pow_right (show 0 < 2 by decide) (show excessBits n n + 1 ≤ _ from hk)
      rw [Nat.pow_succ] at this
      omega
    have hm0 : excessBits m m ≠ 0 := by omega
    have m3 : 4503599627370496 * 2 ^ excessBits m m ≤ m := by
      rcases m2 with m2 | m2
      · exact absurd m2 hm0
      · exact m2
    have hqn : n / 2 ^ excessBits n n + 1 ≤ 9007199254740992 := by
      have : n / 2 ^ excessBits n n < 9007199254740992 :=
        (Nat.div_lt_iff_lt_mul hpn).2 n1
      omega
    have hqm : 4503599627370496 ≤ m / 2 ^ excessBits m m :=
      (Nat.le_div_iff_mul_le hpm).2 m3
    have e1 := Nat.mul_le_mul_right (2 ^ excessBits n n) hqn
    have e2 := Nat.mul_le_mul_right (2 ^ excessBits m m) hqm
    generalize 2 ^ excessBits n n = pn at *
    generalize 2 ^ excessBits m m = pm at *
    generalize n / pn = qn at *
    generalize m / pm = qm at *
    generalize (qn + 1) * pn = un at *
    generalize qm * pm = lm at *
    omega
  · -- same binade
    have hq : n / 2 ^ excessBits n n ≤ m / 2 ^ excessBits n n := Nat.div_le_div_right h
    rcases Nat.lt_or_ge (n / 2 ^ excessBits n n) (m / 2 ^ excessBits n n) with hlt | hge
    · have e1 := Nat.mul_le_mul_right (2 ^ excessBits n n) (show _ + 1 ≤ _ from hlt)
      rw [← hk] at bm1
      exact Nat.le_trans bn2 (Nat.le_trans e1 bm1)
    · have hqe : m / 2 ^ excessBits n n = n / 2 ^ excessBits n n := Nat.le_antisymm hge hq
      have dn := Nat.div_add_mod n (2 ^ excessBits n n)
      have dm := Nat.div_add_mod m (2 ^ excessBits n n)
      rw [hqe] at dm
      unfold roundDouble
      simp only []
      rw [← hk, hqe]
      generalize 2 ^ excessBits n n = p at *
      have hc1 : (n / p + 1) * p = p * (n / p) + p := by ring
      have hc : n / p * p = p * (n / p) := Nat.mul_comm _ _
      rw [hc1, hc]
      generalize p * (n / p) = t at *
      split_ifs <;> omega
  · -- impossible: n would exceed m
    exfalso
    have hp : 2 * 2 ^ excessBits m m ≤ 2 ^ excessBits n n := by
      have := Nat.pow_le_pow_right (show 0 < 2 by decide) (show excessBits m m + 1 ≤ _ from hk)
      rw [Nat.pow_succ] at this
      omega
    have hn0 : excessBits n n ≠ 0 := by omega
    rcases n2 with n2 | n2
    · exact hn0 n2
    · generalize 2 ^ excessBits n n = pn at *
      generalize 2 ^ excessBits m m = pm at *
      omega

theorem weightedSum_mono (a b : RGBColor) (hr : a.red ≤ b.red) (hg : a.green ≤ b.green)
    (hb : a.blue ≤ b.blue) : weightedSum a ≤ weightedSum b := by
  unfold weightedSum
  have h1 := roundDouble_mono _ _ (Nat.mul_le_mul_left c01 (show a.red.val ≤ b.red.val from hr))
  have h2 := roundDouble_mono _ _
    (Nat.mul_le_mul_left c06 (show a.green.val ≤ b.green.val from hg))
  have h3 := roundDouble_mono _ _
    (Nat.mul_le_mul_left c03 (show a.blue.val ≤ b.blue.val from hb))
  exact roundDouble_mono _ _
    (Nat.add_le_add (roundDouble_mono _ _ (Nat.add_le_add h1 h2)) h3)

set_option maxRecDepth 100000 in
theorem weightedSum_gray (v : Byte) :
    weightedSum { red := v, green := v, blue := v } ≤ v.val * fpUnit
      ∧ v.val * fpUnit ≤ weightedSum { red := v, green := v, blue := v } + 2048 := by
  revert v
  decide

/-- The three info-header checks fail in program order. -/
theorem validate_first_failure (i : BitmapInfoHeader) :
    (i.color_depth ≠ 24 → validate i = .error .UnsupportedColorDepth)
    ∧ (i.color_depth = 24 → i.compression ≠ 0 → validate i = .error .UnsupportedCompression)
    ∧ (i.color_depth = 24 → i.compression = 0 →
        i.bitmap_size ≠ 3 * i.width * i.height % 2 ^ 32 →
        validate i = .error .SizeMismatch) := by
  have hm := u32_mul3 i.width i.height
  refine ⟨?_, ?_, ?_⟩
  · intro h
    unfold validate
    rw [if_pos h]
  · intro h1 h2
    unfold validate
    rw [if_neg (by simp [h1]), if_pos (by simpa [BI_RGB] using h2)]
  · intro h1 h2 h3
    unfold validate
    rw [hm, if_neg (by simp [h1]), if_neg (by simp [h2, BI_RGB]),
      if_pos (by simpa using h3)]

set_option maxRecDepth 100000 in
/-- The grayscale value of each of the 256 gray samples, by evaluation. -/
theorem gray_samples (w : Byte) :
    ((grayscale { red := w, green := w, blue := w }).val = w.val
        ∨ (grayscale { red := w, green := w, blue := w }).val + 1 = w.val)
    ∧ (grayscale { red := w, green := w, blue := w } = w ↔ w ∉ grayDrops) := by
  revert w
  decide

/-! ## The claims -/

/-- Claim C1, as stated, fails: validation accepts `wrappedInfo`, whose bitmap_size 0 is not
3 x width x height = 12884901888. -/
theorem validate_accepts_wrapped_size :
    validate wrappedInfo = .ok ()
      ∧ wrappedInfo.bitmap_size ≠ 3 * wrappedInfo.width * wrappedInfo.height := by
  decide

/-- Claim C1, amended: validation succeeds if and only if color_depth = 24, compression = 0
and bitmap_size equals 3 x width x height reduced modulo 2 ^ 32 (the exact product whenever
it is below 2 ^ 32); depth 8 is rejected as UnsupportedColorDepth, compression 1 (at depth 24)
as UnsupportedCompression, and bitmap_size = width x height x 3 + 1 (at depth 24,
uncompressed) as SizeMismatch. -/
theorem validate_ok_iff (info : BitmapInfoHeader) :
    (validate info = .ok () ↔
      info.color_depth = 24 ∧ info.compression = 0
        ∧ info.bitmap_size = 3 * info.width * info.height % 2 ^ 32)
    ∧ (3 * info.width * info.height < 2 ^ 32 →
        (validate info = .ok () ↔
          info.color_depth = 24 ∧ info.compression = 0
            ∧ info.bitmap_size = 3 * info.width * info.height))
    ∧ validate { info with color_depth := 8 } = .error .UnsupportedColorDepth
    ∧ validate { info with color_depth := 24, compression := BI_RLE8 }
        = .error .UnsupportedCompression
    ∧ validate { info with color_depth := 24, compression := BI_RGB,
                           bitmap_size := info.width * info.height * 3 + 1 }
        = .error .SizeMismatch := by
  have hm := u32_mul3 info.width info.height
  have hle : 3 * info.width * info.height % 4294967296 ≤ 3 * info.width * info.height :=
    Nat.mod_le _ _
  refine ⟨?_, ?_, ?_, ?_, ?_⟩
  · unfold validate
    rw [hm]
    simp only [BI_RGB]
    norm_num
    split_ifs <;> simp_all
  · intro hsmall
    unfold validate
    rw [hm, Nat.mod_eq_of_lt (by simpa using hsmall)]
    simp only [BI_RGB]
    split_ifs <;> simp_all
  · simp [validate]
  · simp [validate, BI_RGB, BI_RLE8]
  · unfold validate
    simp only [hm]
    have hcomm : info.width * info.height * 3 = 3 * info.width * info.height := by ring
    rw [if_neg (by simp), if_neg (by simp), if_pos (by show _ + 1 ≠ _; rw [hcomm]; omega)]

/-- Instance of claim C1 (amended) at the 2 x 2 sample header. -/
theorem validate_ok_iff_witness :
    3 * sampleInfo.width * sampleInfo.height < 2 ^ 32
      ∧ (validate sampleInfo = .ok () ↔
          sampleInfo.color_depth = 24 ∧ sampleInfo.compression = 0
            ∧ sampleInfo.bitmap_size = 3 * sampleInfo.width * sampleInfo.height) :=
  ⟨by decide, (validate_ok_iff sampleInfo).2.1 (by decide)⟩

/-- Claim C2, as stated, fails: the empty input and the one-byte input 'B' do not have
'B','M' as their first two bytes, yet the run does not report BadMagic when the `header`
object held 'B','M' before the read: the short read of line 71 leaves those bytes in place,
the magic test of line 73 passes on them, and the run goes on to the depth check. -/
theorem short_input_not_badMagic :
    ([] : List Byte).take 2 ≠ [66, 77]
    ∧ ([66] : List Byte).take 2 ≠ [66, 77]
    ∧ (main bmStack (some [])).error ≠ some .BadMagic
    ∧ (main bmStack (some [66])).error ≠ some .BadMagic
    ∧ (main bmStack (some [])).error = some .UnsupportedColorDepth
    ∧ (main bmStack (some [66])).error = some .UnsupportedColorDepth := by
  decide

/-- Claim C2, amended: for every input byte sequence that holds at least two bytes, `b0` and
`b1` being the first two, decoding the file header fails with BadMagic exactly when they are
not 'B' (66) and 'M' (77), and so does the run; the failing run stops before the info header
is read, so its result is the same whatever the rest of the input (depth, compression and
size fields included) and the stack hold. -/
theorem badMagic_iff (stack : Stack) (b0 b1 : Byte) (rest : List Byte) :
    (decodeHeaders (b0 :: b1 :: rest) = .error .BadMagic ↔ ¬ (b0 = 66 ∧ b1 = 77))
    ∧ ((main stack (some (b0 :: b1 :: rest))).error = some .BadMagic ↔ ¬ (b0 = 66 ∧ b1 = 77))
    ∧ (¬ (b0 = 66 ∧ b1 = 77) →
        main stack (some (b0 :: b1 :: rest))
          = { exitCode := 1, error := some .BadMagic, output := none }) := by
  obtain ⟨m1, m2⟩ := read_header_magic stack b0 b1 rest
  have hb0 : b0 = 66 ↔ b0.val = 66 := by
    constructor
    · intro h; rw [h]; rfl
    · intro h; exact Fin.ext h
  have hb1 : b1 = 77 ↔ b1.val = 77 := by
    constructor
    · intro h; rw [h]; rfl
    · intro h; exact Fin.ext h
  have hmain : ¬ (b0 = 66 ∧ b1 = 77) →
      main stack (some (b0 :: b1 :: rest))
        = { exitCode := 1, error := some .BadMagic, output := none } := by
    intro h
    rw [hb0, hb1] at h
    simp only [main, checkMagic_eq, m1, m2, if_neg h]
  refine ⟨?_, ?_, hmain⟩
  · simp only [decodeHeaders, checkMagic_eq, fileHeaderOf, sizeofBitmapFileHeader,
      BitmapFileHeader.ofBytes, byteAt, hb0, hb1]
    simp only [List.take_succ_cons, List.getD_cons_zero, List.getD_cons_succ]
    split_ifs with h
    · simp [h]
    · simp [h]
  · constructor
    · intro h hbm
      rw [hb0, hb1] at hbm
      simp only [main, checkMagic_eq, m1, m2, if_pos hbm] at h
      have hv := validate_ne_badMagic
        (BitmapInfoHeader.ofBytes
          (((IStream.opened (b0 :: b1 :: rest)).read stack.header sizeofBitmapFileHeader).1.read
            stack.info sizeofBitmapInfoHeader).2)
      revert h hv
      cases validate (BitmapInfoHeader.ofBytes
          (((IStream.opened (b0 :: b1 :: rest)).read stack.header sizeofBitmapFileHeader).1.read
            stack.info sizeofBitmapInfoHeader).2) with
      | error e => intro h hv; simp at h; exact hv (by rw [h])
      | ok u => intro h; simp at h
    · intro h
      rw [hmain h]

/-- Instance of claim C2: a file starting with "XX" is rejected with BadMagic. -/
theorem badMagic_iff_witness :
    ¬ ((88 : Byte) = 66 ∧ (88 : Byte) = 77)
      ∧ main zeroStack (some (88 :: 88 :: (sampleFile.drop 2)))
          = { exitCode := 1, error := some .BadMagic, output := none } :=
  ⟨by decide, (badMagic_iff zeroStack 88 88 (sampleFile.drop 2)).2.2 (by decide)⟩

/-- Claim C3, as stated, fails: for (red, green, blue) = (0, 1, 18) the exact weights give
floor(60 / 10) = 6, while the `double` sum 0.6 + 5.3999999999999995 is just below 6 and
grayscale returns 5. -/
theorem grayscale_not_floor :
    grayscale { red := 0, green := 1, blue := 18 } = 5
      ∧ (grayscale { red := 0, green := 1, blue := 18 }).val ≠ (0 + 6 * 1 + 3 * 18) / 10 := by
  decide

/-- Claim C3, amended: grayscale returns the `double` value of 0.1 x red + 0.6 x green +
0.3 x blue truncated toward zero (never wrapped); this is floor((red + 6 green + 3 blue) / 10)
whenever red + 6 green + 3 blue is not a multiple of 10, and otherwise that value or one
less; (255,0,0) gives 25, (0,255,0) gives 153 and (0,0,255) gives 76. -/
theorem grayscale_truncates (color : RGBColor) :
    (grayscale color).val = weightedSum color / fpUnit
    ∧ ((color.red.val + 6 * color.green.val + 3 * color.blue.val) % 10 ≠ 0 →
        (grayscale color).val = (color.red.val + 6 * color.green.val + 3 * color.blue.val) / 10)
    ∧ ((grayscale color).val = (color.red.val + 6 * color.green.val + 3 * color.blue.val) / 10
        ∨ (grayscale color).val + 1
            = (color.red.val + 6 * color.green.val + 3 * color.blue.val) / 10)
    ∧ grayscale { red := 255, green := 0, blue := 0 } = 25
    ∧ grayscale { red := 0, green := 255, blue := 0 } = 153
    ∧ grayscale { red := 0, green := 0, blue := 255 } = 76 := by
  have hv := grayscale_val color
  have h := weightedSum_near color
  have hr := color.red.isLt
  have hg := color.green.isLt
  have hb := color.blue.isLt
  simp only [fpUnit] at h hv
  refine ⟨by rw [hv]; rfl, ?_, ?_, by decide, by decide, by decide⟩
  · intro hne
    rw [hv]
    omega
  · rw [hv]
    omega

/-- Instance of claim C3 (amended): (12, 34, 56) has 12 + 204 + 168 = 384, not a multiple
of 10, and grayscale returns 38. -/
theorem grayscale_truncates_witness :
    ((12 : Byte).val + 6 * (34 : Byte).val + 3 * (56 : Byte).val) % 10 ≠ 0
      ∧ (grayscale { red := 12, green := 34, blue := 56 }).val
          = ((12 : Byte).val + 6 * (34 : Byte).val + 3 * (56 : Byte).val) / 10 :=
  ⟨by decide, (grayscale_truncates { red := 12, green := 34, blue := 56 }).2.1 (by decide)⟩

/-- Claim C4: for every input that passes validation with width W and height H and holds at
least 3 W H bytes from its declared bitmap_offset, the output is the 54 header bytes followed
by exactly W x H samples, and for every k < W x H the three bytes of output sample k all equal
grayscale of the input sample stored at bytes bitmap_offset + 3k .. bitmap_offset + 3k + 2. -/
theorem pixels_are_grayscale (stack : Stack) (data : List Byte) (hv : PassesValidation data)
    (hlen : (fileHeaderOf data).bitmap_offset
      + 3 * ((infoHeaderOf data).width * (infoHeaderOf data).height) ≤ data.length) :
    ∃ out : List Byte,
      (main stack (some data)).output = some out
      ∧ out.length = 54 + 3 * ((infoHeaderOf data).width * (infoHeaderOf data).height)
      ∧ ∀ k : Nat, k < (infoHeaderOf data).width * (infoHeaderOf data).height →
          ∀ c : Nat, c < 3 →
            byteAt out (54 + 3 * k + c)
              = grayscale
                  { red := byteAt data ((fileHeaderOf data).bitmap_offset + 3 * k),
                    green := byteAt data ((fileHeaderOf data).bitmap_offset + 3 * k + 1),
                    blue := byteAt data ((fileHeaderOf data).bitmap_offset + 3 * k + 2) } := by
  refine ⟨_, main_output_complete stack data hv hlen, ?_, ?_⟩
  · rw [List.length_append, encodeHeaders_length, transformStream_length]
  · intro k hk c hc
    have e : 54 + 3 * k + c
        = (encodeHeaders (deriveOutputHeaders (fileHeaderOf data) (infoHeaderOf data)).1
            (deriveOutputHeaders (fileHeaderOf data) (infoHeaderOf data)).2).length
          + (3 * k + c) := by
      rw [encodeHeaders_length, Nat.add_assoc]
    rw [e, byteAt_append_right, transformStream_byteAt _ _ k c hk hc, List.drop_drop,
      rgb_ofBytes_drop]

/-- Instance of claim C4 at the 2 x 2 sample bitmap. -/
theorem pixels_are_grayscale_witness :
    PassesValidation sampleFile
    ∧ (fileHeaderOf sampleFile).bitmap_offset
        + 3 * ((infoHeaderOf sampleFile).width * (infoHeaderOf sampleFile).height)
        ≤ sampleFile.length
    ∧ ∃ out : List Byte,
      (main zeroStack (some sampleFile)).output = some out
      ∧ out.length
          = 54 + 3 * ((infoHeaderOf sampleFile).width * (infoHeaderOf sampleFile).height)
      ∧ ∀ k : Nat, k < (infoHeaderOf sampleFile).width * (infoHeaderOf sampleFile).height →
          ∀ c : Nat, c < 3 →
            byteAt out (54 + 3 * k + c)
              = grayscale
                  { red := byteAt sampleFile ((fileHeaderOf sampleFile).bitmap_offset + 3 * k),
                    green :=
                      byteAt sampleFile ((fileHeaderOf sampleFile).bitmap_offset + 3 * k + 1),
                    blue :=
                      byteAt sampleFile ((fileHeaderOf sampleFile).bitmap_offset + 3 * k + 2) } :=
  ⟨by decide, by decide, pixels_are_grayscale zeroStack sampleFile (by decide) (by decide)⟩

/-- Claim C5, as stated, fails: the truncated sample passes validation and holds one complete
sample where its headers call for four, yet the run ends with exit status 0, no diagnostic and
a full-length stream of four samples; the samples past the end are computed from what is left
in `rgbIn`. -/
theorem truncated_input_completes :
    PassesValidation truncatedFile
    ∧ truncatedFile.length
        < (fileHeaderOf truncatedFile).bitmap_offset
          + 3 * ((infoHeaderOf truncatedFile).width * (infoHeaderOf truncatedFile).height)
    ∧ main zeroStack (some truncatedFile)
        = { exitCode := 0, error := none,
            output := some (encodeHeaders
              (deriveOutputHeaders sampleHeader sampleInfo).1
              (deriveOutputHeaders sampleHeader sampleInfo).2
              ++ [25, 25, 25, 153, 153, 153, 153, 153, 153, 153, 153, 153]) } := by
  decide

/-- Claim C5, amended: for every input that passes validation, and so also for one that holds
fewer than width x height complete samples after its pixel-data offset, the conversion
reports no error: the run ends with exit status 0 and no diagnostic, having written the
headers and a full-length stream of width x height samples. -/
theorem truncation_undetected (stack : Stack) (data : List Byte) (hv : PassesValidation data) :
    (main stack (some data)).exitCode = 0
    ∧ (main stack (some data)).error = none
    ∧ ∃ out : List Byte,
        (main stack (some data)).output = some out
        ∧ out.length = 54 + 3 * ((infoHeaderOf data).width * (infoHeaderOf data).height) := by
  obtain ⟨px, h1, h2⟩ := main_output_shape stack data hv
  rw [h1]
  refine ⟨rfl, rfl, _, rfl, ?_⟩
  rw [List.length_append, encodeHeaders_length, h2]

/-- Instance of claim C5 (amended) at the truncated sample bitmap. -/
theorem truncation_undetected_witness :
    PassesValidation truncatedFile
    ∧ (main zeroStack (some truncatedFile)).exitCode = 0
    ∧ (main zeroStack (some truncatedFile)).error = none
    ∧ ∃ out : List Byte,
        (main zeroStack (some truncatedFile)).output = some out
        ∧ out.length
            = 54 + 3 * ((infoHeaderOf truncatedFile).width * (infoHeaderOf truncatedFile).height) :=
  ⟨by decide, truncation_undetected zeroStack truncatedFile (by decide)⟩

/-- Claim C6, as stated, fails: the 54-byte input with width 2147483648 and height 2 passes
validation, and the bitmap_size written to the output is 0, not the exact product
3 x 2147483648 x 2 = 12884901888. -/
theorem bitmap_size_wraps :
    PassesValidation wrappedFile
    ∧ ∃ out : List Byte,
        (main zeroStack (some wrappedFile)).output = some out
        ∧ (infoHeaderOf out).bitmap_size = 0
        ∧ (infoHeaderOf out).bitmap_size
            ≠ 3 * (infoHeaderOf wrappedFile).width * (infoHeaderOf wrappedFile).height := by
  have hv : PassesValidation wrappedFile := by decide
  obtain ⟨px, h1, _⟩ := main_output_shape zeroStack wrappedFile hv
  have h0 : (infoHeaderOf (encodeHeaders
      (deriveOutputHeaders (fileHeaderOf wrappedFile) (infoHeaderOf wrappedFile)).1
      (deriveOutputHeaders (fileHeaderOf wrappedFile) (infoHeaderOf wrappedFile)).2
      ++ px)).bitmap_size = 0 := by
    rw [infoHeaderOf_encode, infoHeader_ofBytes_toBytes]
    decide
  refine ⟨hv, _, by rw [h1], h0, ?_⟩
  rw [h0]
  decide

/-- Claim C6, amended: for every input that passes validation with width W and height H, the
output holds exactly W x H samples after its 54 header bytes, the bitmap_size field of the
output is 3 W H reduced modulo 2 ^ 32 (the exact product whenever that is below 2 ^ 32), and
the bitmap_offset field of the output is 54. -/
theorem output_sizes (stack : Stack) (data : List Byte) (hv : PassesValidation data) :
    ∃ out : List Byte,
      (main stack (some data)).output = some out
      ∧ out.length = 54 + 3 * ((infoHeaderOf data).width * (infoHeaderOf data).height)
      ∧ (infoHeaderOf out).bitmap_size
          = 3 * (infoHeaderOf data).width * (infoHeaderOf data).height % 2 ^ 32
      ∧ (3 * (infoHeaderOf data).width * (infoHeaderOf data).height < 2 ^ 32 →
          (infoHeaderOf out).bitmap_size
            = 3 * (infoHeaderOf data).width * (infoHeaderOf data).height)
      ∧ (fileHeaderOf out).bitmap_offset = 54 := by
  obtain ⟨px, h1, h2⟩ := main_output_shape stack data hv
  have hb : (infoHeaderOf (encodeHeaders
      (deriveOutputHeaders (fileHeaderOf data) (infoHeaderOf data)).1
      (deriveOutputHeaders (fileHeaderOf data) (infoHeaderOf data)).2 ++ px)).bitmap_size
      = 3 * (infoHeaderOf data).width * (infoHeaderOf data).height % 2 ^ 32 := by
    rw [infoHeaderOf_encode, infoHeader_ofBytes_toBytes]
    show (deriveOutputHeaders (fileHeaderOf data) (infoHeaderOf data)).2.bitmap_size % 4294967296
      = _
    rw [derived_bitmap_size, Nat.mod_mod]
    norm_num
  refine ⟨_, by rw [h1], ?_, hb, ?_, ?_⟩
  · rw [List.length_append, encodeHeaders_length, h2]
  · intro hsmall
    rw [hb, Nat.mod_eq_of_lt hsmall]
  · rw [fileHeaderOf_encode, fileHeader_ofBytes_toBytes]
    rfl

/-- Instance of claim C6 (amended) at the 2 x 2 sample bitmap. -/
theorem output_sizes_witness :
    PassesValidation sampleFile
    ∧ ∃ out : List Byte,
      (main zeroStack (some sampleFile)).output = some out
      ∧ out.length = 54 + 3 * ((infoHeaderOf sampleFile).width * (infoHeaderOf sampleFile).height)
      ∧ (infoHeaderOf out).bitmap_size
          = 3 * (infoHeaderOf sampleFile).width * (infoHeaderOf sampleFile).height % 2 ^ 32
      ∧ (3 * (infoHeaderOf sampleFile).width * (infoHeaderOf sampleFile).height < 2 ^ 32 →
          (infoHeaderOf out).bitmap_size
            = 3 * (infoHeaderOf sampleFile).width * (infoHeaderOf sampleFile).height)
      ∧ (fileHeaderOf out).bitmap_offset = 54 :=
  ⟨by decide, output_sizes zeroStack sampleFile (by decide)⟩

/-- Claim C7: for every input header pair, the derived output headers have bitmap_offset = 54
(the sum of the two header sizes, 14 + 40), info size = 40, color_planes = 1, compression = 0
and important_colors = 0. -/
theorem derived_fixed_fields (header : BitmapFileHeader) (info : BitmapInfoHeader) :
    (deriveOutputHeaders header info).1.bitmap_offset = 54
    ∧ (deriveOutputHeaders header info).1.bitmap_offset
        = sizeofBitmapFileHeader + sizeofBitmapInfoHeader
    ∧ (deriveOutputHeaders header info).2.size = 40
    ∧ (deriveOutputHeaders header info).2.color_planes = 1
    ∧ (deriveOutputHeaders header info).2.compression = 0
    ∧ (deriveOutputHeaders header info).2.important_colors = 0 :=
  ⟨rfl, rfl, rfl, rfl, rfl, rfl⟩

/-- Claim C8: for every input header pair, deriving the output headers leaves width, height,
x_resolution, y_resolution, reserved1, reserved2, the two magic bytes and color_depth equal to
their input values. -/
theorem derived_frame (header : BitmapFileHeader) (info : BitmapInfoHeader) :
    (deriveOutputHeaders header info).2.width = info.width
    ∧ (deriveOutputHeaders header info).2.height = info.height
    ∧ (deriveOutputHeaders header info).2.x_resolution = info.x_resolution
    ∧ (deriveOutputHeaders header info).2.y_resolution = info.y_resolution
    ∧ (deriveOutputHeaders header info).1.reserved1 = header.reserved1
    ∧ (deriveOutputHeaders header info).1.reserved2 = header.reserved2
    ∧ (deriveOutputHeaders header info).1.magic1 = header.magic1
    ∧ (deriveOutputHeaders header info).1.magic2 = header.magic2
    ∧ (deriveOutputHeaders header info).2.color_depth = info.color_depth :=
  ⟨rfl, rfl, rfl, rfl, rfl, rfl, rfl, rfl, rfl⟩

/-- Claim C9, as stated, fails: the complete 1431655748 x 1 bitmap passes validation and is
not truncated; the output file is 4294967298 bytes long and its total_size field is 2. -/
theorem total_size_wraps :
    PassesValidation hugeFile
    ∧ (fileHeaderOf hugeFile).bitmap_offset
        + 3 * ((infoHeaderOf hugeFile).width * (infoHeaderOf hugeFile).height) ≤ hugeFile.length
    ∧ ∃ out : List Byte,
        (main zeroStack (some hugeFile)).output = some out
        ∧ out.length = 4294967298
        ∧ (fileHeaderOf out).total_size = 2
        ∧ (fileHeaderOf out).total_size ≠ out.length := by
  obtain ⟨e1, e2, e3⟩ := hugeFile_headers
  have hv : PassesValidation hugeFile := by
    unfold PassesValidation
    rw [e1, e2, e3]
    decide
  obtain ⟨px, h1, h2⟩ := main_output_shape zeroStack hugeFile hv
  have hl : (encodeHeaders (deriveOutputHeaders (fileHeaderOf hugeFile) (infoHeaderOf hugeFile)).1
      (deriveOutputHeaders (fileHeaderOf hugeFile) (infoHeaderOf hugeFile)).2 ++ px).length
      = 4294967298 := by
    rw [List.length_append, encodeHeaders_length, h2, e2]
    decide
  have ht : (fileHeaderOf (encodeHeaders
      (deriveOutputHeaders (fileHeaderOf hugeFile) (infoHeaderOf hugeFile)).1
      (deriveOutputHeaders (fileHeaderOf hugeFile) (infoHeaderOf hugeFile)).2 ++ px)).total_size
      = 2 := by
    rw [fileHeaderOf_encode, fileHeader_ofBytes_toBytes, e1, e2]
    decide
  refine ⟨hv, by rw [e1, e2, e3]; decide, _, by rw [h1], hl, ht, ?_⟩
  rw [ht, hl]
  decide

/-- Claim C9, amended: for every input that passes validation, the total_size field of the
output equals the byte length of the whole output file (54 plus 3 bytes for each of the
width x height samples) reduced modulo 2 ^ 32, hence that length itself whenever it is below
2 ^ 32. -/
theorem total_size_mod (stack : Stack) (data : List Byte) (hv : PassesValidation data) :
    ∃ out : List Byte,
      (main stack (some data)).output = some out
      ∧ out.length = 54 + 3 * ((infoHeaderOf data).width * (infoHeaderOf data).height)
      ∧ (fileHeaderOf out).total_size = out.length % 2 ^ 32
      ∧ (out.length < 2 ^ 32 → (fileHeaderOf out).total_size = out.length) := by
  obtain ⟨px, h1, h2⟩ := main_output_shape stack data hv
  have hl : (encodeHeaders (deriveOutputHeaders (fileHeaderOf data) (infoHeaderOf data)).1
      (deriveOutputHeaders (fileHeaderOf data) (infoHeaderOf data)).2 ++ px).length
      = 54 + 3 * ((infoHeaderOf data).width * (infoHeaderOf data).height) := by
    rw [List.length_append, encodeHeaders_length, h2]
  have ht : (fileHeaderOf (encodeHeaders
      (deriveOutputHeaders (fileHeaderOf data) (infoHeaderOf data)).1
      (deriveOutputHeaders (fileHeaderOf data) (infoHeaderOf data)).2 ++ px)).total_size
      = (54 + 3 * ((infoHeaderOf data).width * (infoHeaderOf data).height)) % 2 ^ 32 := by
    rw [fileHeaderOf_encode, fileHeader_ofBytes_toBytes]
    show (deriveOutputHeaders (fileHeaderOf data) (infoHeaderOf data)).1.total_size % 4294967296
      = _
    rw [derived_total_size, Nat.mod_mod]
    norm_num
  refine ⟨_, by rw [h1], hl, by rw [ht, hl], ?_⟩
  intro hsmall
  rw [ht, hl]
  rw [hl] at hsmall
  exact Nat.mod_eq_of_lt hsmall

/-- Instance of claim C9 (amended) at the 2 x 2 sample bitmap. -/
theorem total_size_mod_witness :
    PassesValidation sampleFile
    ∧ ∃ out : List Byte,
      (main zeroStack (some sampleFile)).output = some out
      ∧ out.length = 54 + 3 * ((infoHeaderOf sampleFile).width * (infoHeaderOf sampleFile).height)
      ∧ (fileHeaderOf out).total_size = out.length % 2 ^ 32
      ∧ (out.length < 2 ^ 32 → (fileHeaderOf out).total_size = out.length) :=
  ⟨by decide, total_size_mod zeroStack sampleFile (by decide)⟩

/-- Claim C10: every 54-byte sequence that begins with 'B' (66), 'M' (77) decodes, field by
field and little-endian, to a header pair, and encoding that pair reproduces the 54 bytes. -/
theorem header_roundtrip (bytes : List Byte) (hlen : bytes.length = 54)
    (hB : byteAt bytes 0 = 66) (hM : byteAt bytes 1 = 77) :
    ∃ (header : BitmapFileHeader) (info : BitmapInfoHeader),
      decodeHeaders bytes = .ok (header, info) ∧ encodeHeaders header info = bytes := by
  have hmagic : checkMagic (fileHeaderOf bytes) = .ok () := by
    have h0 : byteAt (bytes.take 14) 0 = 66 := by rw [byteAt_take _ _ _ (by decide), hB]
    have h1 : byteAt (bytes.take 14) 1 = 77 := by rw [byteAt_take _ _ _ (by decide), hM]
    simp only [checkMagic_eq, fileHeaderOf, sizeofBitmapFileHeader, BitmapFileHeader.ofBytes,
      h0, h1]
    rfl
  refine ⟨fileHeaderOf bytes, infoHeaderOf bytes, by simp only [decodeHeaders, hmagic], ?_⟩
  unfold encodeHeaders fileHeaderOf infoHeaderOf sizeofBitmapFileHeader sizeofBitmapInfoHeader
  rw [fileHeader_toBytes_ofBytes _ (by rw [List.length_take]; omega),
    infoHeader_toBytes_ofBytes _ (by rw [List.length_take, List.length_drop]; omega)]
  have hd : (bytes.drop 14).take 40 = bytes.drop 14 :=
    List.take_of_length_le (by rw [List.length_drop]; omega)
  rw [hd, List.take_append_drop]

/-- Instance of claim C10 at the 54 header bytes of the sample bitmap. -/
theorem header_roundtrip_witness :
    (sampleFile.take 54).length = 54
    ∧ byteAt (sampleFile.take 54) 0 = 66
    ∧ byteAt (sampleFile.take 54) 1 = 77
    ∧ ∃ (header : BitmapFileHeader) (info : BitmapInfoHeader),
        decodeHeaders (sampleFile.take 54) = .ok (header, info)
          ∧ encodeHeaders header info = sampleFile.take 54 :=
  ⟨by decide, by decide, by decide,
    header_roundtrip (sampleFile.take 54) (by decide) (by decide) (by decide)⟩

/-- Claim C11, as stated, fails: grayscale of the white sample (255, 255, 255) is not 254. -/
theorem white_not_254 :
    (grayscale white).val ≠ 254 := by
  decide

/-- Claim C11, amended: for the white sample (255, 255, 255) grayscale returns 255. The three
products round to the `double` values 25.5, 153.0 and 76.5, whose sum is exactly 255.0,
although the three weights as `double` values add up to less than 1.0. -/
theorem white_is_255 :
    grayscale white = 255
      ∧ roundDouble (c01 * 255) = 51 * fpUnit / 2
      ∧ roundDouble (c06 * 255) = 153 * fpUnit
      ∧ roundDouble (c03 * 255) = 153 * fpUnit / 2
      ∧ weightedSum white = 255 * fpUnit
      ∧ c01 + c06 + c03 < fpUnit := by
  decide

/-- Claim C12, as stated, fails: the colors field derived for the sample headers is not
4294967295, the largest value of a 4-byte unsigned field. -/
theorem colors_not_max :
    (deriveOutputHeaders sampleHeader sampleInfo).2.colors ≠ 4294967295 := by
  decide

/-- Claim C12, amended: for every input header pair, the colors field of the derived output
info header is 16777215 (0xFFFFFF = 2 ^ 24 - 1, the largest 24-bit value), which is below the
largest value of its 4-byte field. -/
theorem derived_colors (header : BitmapFileHeader) (info : BitmapInfoHeader) :
    (deriveOutputHeaders header info).2.colors = 16777215
      ∧ (deriveOutputHeaders header info).2.colors = 2 ^ 24 - 1
      ∧ (deriveOutputHeaders header info).2.colors < 2 ^ 32 - 1 := by
  refine ⟨rfl, ?_, ?_⟩
  · show 16777215 = 2 ^ 24 - 1
    norm_num
  · show 16777215 < 2 ^ 32 - 1
    norm_num

/-- Claim C13, as stated, fails: when the input file cannot be opened the run ends with exit
status 0 (and prints no diagnostic). -/
theorem unopened_input_exits_zero :
    (main zeroStack none).exitCode = 0 ∧ (main zeroStack none).error = none := by
  decide

/-- Claim C13, amended: on a file that could be opened, the exit status of the run is 0 when
the four checks pass and 1 on every validation failure (bad magic, unsupported depth,
unsupported compression, size mismatch): it is 1 exactly when a diagnostic is reported. -/
theorem exit_status (stack : Stack) (data : List Byte) :
    ((main stack (some data)).exitCode = 0 ↔
      checkMagic (headerRead stack data) = .ok () ∧ validate (infoRead stack data) = .ok ())
    ∧ ((main stack (some data)).exitCode = 1 ↔
      checkMagic (headerRead stack data) ≠ .ok () ∨ validate (infoRead stack data) ≠ .ok ())
    ∧ (∀ e : FormatError, (main stack (some data)).error = some e →
        (main stack (some data)).exitCode = 1)
    ∧ ((main stack (some data)).error = none → (main stack (some data)).exitCode = 0) := by
  rcases main_outcomes stack data with ⟨hm, h⟩ | ⟨hm, e, hv, h⟩ | ⟨hm, hv, out, h⟩
  · rw [h, hm]
    simp
  · rw [h, hm, hv]
    simp
  · rw [h, hm, hv]
    simp

/-- Instance of claim C13 (amended): the input with depth 8 ends with exit status 1. -/
theorem exit_status_witness :
    (main zeroStack (some faultyFile)).error = some .UnsupportedColorDepth
      ∧ (main zeroStack (some faultyFile)).exitCode = 1 :=
  ⟨by decide, (exit_status zeroStack faultyFile).2.2.1 .UnsupportedColorDepth (by decide)⟩

/-- Claim C14: the error reported is the first failing check in the order magic, color
depth, compression, size. A header with color_depth other than 24 gives UnsupportedColorDepth
whatever its compression and bitmap_size; with depth 24 and compression other than 0 it gives
UnsupportedCompression whatever its bitmap_size; and a run whose magic check fails reports
BadMagic whatever the info header holds. -/
theorem first_failing_check (stack : Stack) (data : List Byte) (info : BitmapInfoHeader) :
    (info.color_depth ≠ 24 → validate info = .error .UnsupportedColorDepth)
    ∧ (info.color_depth = 24 → info.compression ≠ 0 →
        validate info = .error .UnsupportedCompression)
    ∧ (info.color_depth = 24 → info.compression = 0 →
        info.bitmap_size ≠ 3 * info.width * info.height % 2 ^ 32 →
        validate info = .error .SizeMismatch)
    ∧ (checkMagic (headerRead stack data) ≠ .ok () →
        (main stack (some data)).error = some .BadMagic)
    ∧ (checkMagic (headerRead stack data) = .ok () → (infoRead stack data).color_depth ≠ 24 →
        (main stack (some data)).error = some .UnsupportedColorDepth)
    ∧ (checkMagic (headerRead stack data) = .ok () → (infoRead stack data).color_depth = 24 →
        (infoRead stack data).compression ≠ 0 →
        (main stack (some data)).error = some .UnsupportedCompression)
    ∧ (checkMagic (headerRead stack data) = .ok () → (infoRead stack data).color_depth = 24 →
        (infoRead stack data).compression = 0 →
        (infoRead stack data).bitmap_size
          ≠ 3 * (infoRead stack data).width * (infoRead stack data).height % 2 ^ 32 →
        (main stack (some data)).error = some .SizeMismatch) := by
  have hv := validate_first_failure
  obtain ⟨v1, v2, v3⟩ := hv (infoRead stack data)
  refine ⟨(hv info).1, (hv info).2.1, (hv info).2.2, ?_, ?_, ?_, ?_⟩
  · intro h
    rw [main_some]
    rcases checkMagic_cases (headerRead stack data) with hm | hm
    · exact absurd hm h
    · rw [hm]
  · intro hm h1
    rw [main_some, hm, v1 h1]
  · intro hm h1 h2
    rw [main_some, hm, v2 h1 h2]
  · intro hm h1 h2 h3
    rw [main_some, hm, v3 h1 h2 h3]

/-- Instance of claim C14: with depth 8, compression 1 and a wrong size at once the error is
UnsupportedColorDepth, and with "XX" in front of the same info header it is BadMagic. -/
theorem first_failing_check_witness :
    faultyInfo.color_depth ≠ 24
      ∧ validate faultyInfo = .error .UnsupportedColorDepth
      ∧ checkMagic (headerRead zeroStack xxFile) ≠ .ok ()
      ∧ (main zeroStack (some xxFile)).error = some .BadMagic :=
  ⟨by decide, (first_failing_check zeroStack xxFile faultyInfo).1 (by decide), by decide,
    (first_failing_check zeroStack xxFile faultyInfo).2.2.2.1 (by decide)⟩

/-- Claim C15, as stated, fails: for the stored bytes 255, 0, 0 grayscale returns 25, the
weight 0.1 falling on the first stored byte; with weight 0.3 on the first stored byte and 0.1
on the third, as the claim has it, the value would be 76. -/
theorem weights_not_reversed :
    grayscale (RGBColor.ofBytes [255, 0, 0]) = 25
      ∧ grayscale (RGBColor.ofBytes [0, 0, 255]) = 76
      ∧ grayscale (RGBColor.ofBytes [255, 0, 0])
          ≠ grayscale { red := 0, green := 0, blue := 255 } := by
  decide

/-- Claim C15, amended: for every 3-byte sample as stored in the file, the first stored byte
is the field `red`, the second `green` and the third `blue`, and grayscale applies weight
0.1 to the first stored byte, 0.6 to the second and 0.3 to the third; the pixel loop writes
that value three times. -/
theorem weights_by_stored_position (s0 s1 s2 : Byte) :
    RGBColor.ofBytes [s0, s1, s2] = { red := s0, green := s1, blue := s2 }
    ∧ weightedSum (RGBColor.ofBytes [s0, s1, s2])
        = roundDouble (roundDouble (roundDouble (c01 * s0.val) + roundDouble (c06 * s1.val))
            + roundDouble (c03 * s2.val))
    ∧ ∀ (pre post rgb out : List Byte),
        (pixelStep
          { input := { data := pre ++ [s0, s1, s2] ++ post, pos := pre.length, eofbit := false,
                       failbit := false },
            rgbIn := rgb, out := out }).out
          = out ++ [grayscale { red := s0, green := s1, blue := s2 },
                    grayscale { red := s0, green := s1, blue := s2 },
                    grayscale { red := s0, green := s1, blue := s2 }] := by
  refine ⟨rfl, rfl, ?_⟩
  intro pre post rgb out
  rw [pixelStep_good _ _ _ _ (by simp)]
  simp only [transformStream, List.append_assoc, List.drop_left, List.append_nil]
  rfl

/-- Claim C16: for every input that passes validation, the derived output headers pass the
magic check and validation (magic 'B','M', color_depth 24, compression 0, bitmap_size equal
to the same 32-bit expression), deriving output headers from them again gives the same
headers, and the output file, read back, holds exactly these headers and passes validation. -/
theorem derived_headers_valid (stack : Stack) (data : List Byte) (h : PassesValidation data) :
    checkMagic (deriveOutputHeaders (fileHeaderOf data) (infoHeaderOf data)).1 = .ok ()
    ∧ validate (deriveOutputHeaders (fileHeaderOf data) (infoHeaderOf data)).2 = .ok ()
    ∧ (deriveOutputHeaders (fileHeaderOf data) (infoHeaderOf data)).1.magic1 = 66
    ∧ (deriveOutputHeaders (fileHeaderOf data) (infoHeaderOf data)).1.magic2 = 77
    ∧ (deriveOutputHeaders (fileHeaderOf data) (infoHeaderOf data)).2.color_depth = 24
    ∧ (deriveOutputHeaders (fileHeaderOf data) (infoHeaderOf data)).2.compression = 0
    ∧ (deriveOutputHeaders (fileHeaderOf data) (infoHeaderOf data)).2.bitmap_size
        = u32 (u32 (3 * (deriveOutputHeaders (fileHeaderOf data) (infoHeaderOf data)).2.width)
            * (deriveOutputHeaders (fileHeaderOf data) (infoHeaderOf data)).2.height)
    ∧ deriveOutputHeaders
          (deriveOutputHeaders (fileHeaderOf data) (infoHeaderOf data)).1
          (deriveOutputHeaders (fileHeaderOf data) (infoHeaderOf data)).2
        = deriveOutputHeaders (fileHeaderOf data) (infoHeaderOf data)
    ∧ ∃ out : List Byte,
        (main stack (some data)).output = some out
        ∧ PassesValidation out
        ∧ fileHeaderOf out = (deriveOutputHeaders (fileHeaderOf data) (infoHeaderOf data)).1
        ∧ infoHeaderOf out = (deriveOutputHeaders (fileHeaderOf data) (infoHeaderOf data)).2 := by
  obtain ⟨hlen, hmagic, hval⟩ := h
  have hd : (infoHeaderOf data).color_depth = 24 := by
    by_contra hc
    have := (validate_first_failure (infoHeaderOf data)).1 hc
    rw [this] at hval
    exact absurd hval (by simp)
  have hmg : checkMagic (deriveOutputHeaders (fileHeaderOf data) (infoHeaderOf data)).1
      = .ok () := hmagic
  have hvl : validate (deriveOutputHeaders (fileHeaderOf data) (infoHeaderOf data)).2
      = .ok () := by
    unfold validate
    rw [if_neg (by simpa [deriveOutputHeaders] using hd), if_neg (by simp [deriveOutputHeaders]),
      if_neg (by simp [deriveOutputHeaders])]
  have hm12 : (fileHeaderOf data).magic1 = 66 ∧ (fileHeaderOf data).magic2 = 77 := by
    rw [checkMagic_eq] at hmagic
    by_contra hc
    rw [if_neg hc] at hmagic
    exact absurd hmagic (by simp)
  obtain ⟨px, h1, h2⟩ := main_output_shape stack data ⟨hlen, hmagic, hval⟩
  obtain ⟨r1, r2⟩ := derived_reread data px
  refine ⟨hmg, hvl, hm12.1, hm12.2, hd, rfl, rfl, rfl, _, by rw [h1], ⟨?_, ?_, ?_⟩, r1, r2⟩
  · rw [List.length_append, encodeHeaders_length]
    simp only [sizeofBitmapFileHeader, sizeofBitmapInfoHeader]
    omega
  · rw [r1]
    exact hmg
  · rw [r2]
    exact hvl

/-- Instance of claim C16 at the 2 x 2 sample bitmap. -/
theorem derived_headers_valid_witness :
    PassesValidation sampleFile
    ∧ deriveOutputHeaders
          (deriveOutputHeaders (fileHeaderOf sampleFile) (infoHeaderOf sampleFile)).1
          (deriveOutputHeaders (fileHeaderOf sampleFile) (infoHeaderOf sampleFile)).2
        = deriveOutputHeaders (fileHeaderOf sampleFile) (infoHeaderOf sampleFile) :=
  ⟨by decide, (derived_headers_valid zeroStack sampleFile (by decide)).2.2.2.2.2.2.2.1⟩

/-- Claim C17, as stated, fails: grayscale of (3, 3, 3) is 2; a 1 x 1 bitmap whose sample
0, 5, 1 converts to (3, 3, 3) converts, when its output is run again, to (2, 2, 2). -/
theorem gray_sample_not_fixed :
    grayscale { red := 3, green := 3, blue := 3 } = 2
    ∧ ∃ out1 out2 : List Byte,
        (main zeroStack (some onePixelFile)).output = some out1
        ∧ (main zeroStack (some out1)).output = some out2
        ∧ out1.drop 54 = [3, 3, 3]
        ∧ out2.drop 54 = [2, 2, 2]
        ∧ out2 ≠ out1 := by
  refine ⟨by decide, ?_⟩
  have h1 : (main zeroStack (some onePixelFile)).output
      = some (onePixelFile.take 54 ++ [3, 3, 3]) := by decide
  have h2 : (main zeroStack (some (onePixelFile.take 54 ++ [3, 3, 3]))).output
      = some (onePixelFile.take 54 ++ [2, 2, 2]) := by decide
  exact ⟨_, _, h1, h2, by decide, by decide, by decide⟩

/-- Claim C17, amended: for every byte v, grayscale of the gray sample (v, v, v) is v or
v - 1, and it is v exactly when v is not one of the 41 values of `grayDrops`; so applying
the pixel transform to an already transformed sample leaves it unchanged or lowers it by
one. -/
theorem gray_sample_value (v : Byte) (color : RGBColor) :
    ((grayscale { red := v, green := v, blue := v }).val = v.val
        ∨ (grayscale { red := v, green := v, blue := v }).val + 1 = v.val)
    ∧ (grayscale { red := v, green := v, blue := v } = v ↔ v ∉ grayDrops)
    ∧ ((grayscale { red := grayscale color, green := grayscale color,
                    blue := grayscale color }).val = (grayscale color).val
        ∨ (grayscale { red := grayscale color, green := grayscale color,
                       blue := grayscale color }).val + 1 = (grayscale color).val) := by
  exact ⟨(gray_samples v).1, (gray_samples v).2, (gray_samples (grayscale color)).1⟩

/-- Claim C18, as stated, fails: for the sample (3, 3, 3) the weighted sum is below
min(3, 3, 3) = 3. -/
theorem weightedSum_below_min :
    weightedSum { red := 3, green := 3, blue := 3 }
      < (min (3 : Byte) (min 3 3)).val * fpUnit := by
  decide

/-- Claim C18, amended: for every sample, the weighted sum computed by grayscale is at most
max(red, green, blue) and at least min(red, green, blue) - 2 ^ -45 (2048 units of 2 ^ -56);
hence it is below 256, its integer part lies between min - 1 and max, and the narrowing
conversion to an 8-bit value neither goes out of range nor wraps. -/
theorem weightedSum_range (color : RGBColor) :
    weightedSum color ≤ (max color.red (max color.green color.blue)).val * fpUnit
    ∧ (min color.red (min color.green color.blue)).val * fpUnit ≤ weightedSum color + 2048
    ∧ weightedSum color < 256 * fpUnit
    ∧ weightedSum color / fpUnit ≤ (max color.red (max color.green color.blue)).val
    ∧ (min color.red (min color.green color.blue)).val ≤ weightedSum color / fpUnit + 1
    ∧ (grayscale color).val = weightedSum color / fpUnit := by
  have hmx := weightedSum_mono color
    { red := max color.red (max color.green color.blue),
      green := max color.red (max color.green color.blue),
      blue := max color.red (max color.green color.blue) }
    (le_max_left _ _) (le_trans (le_max_left _ _) (le_max_right _ _))
    (le_trans (le_max_right _ _) (le_max_right _ _))
  have hmn := weightedSum_mono
    { red := min color.red (min color.green color.blue),
      green := min color.red (min color.green color.blue),
      blue := min color.red (min color.green color.blue) }
    color (min_le_left _ _) (le_trans (min_le_right _ _) (min_le_left _ _))
    (le_trans (min_le_right _ _) (min_le_right _ _))
  have gmx := (weightedSum_gray (max color.red (max color.green color.blue))).1
  have gmn := (weightedSum_gray (min color.red (min color.green color.blue))).2
  have bmx := (max color.red (max color.green color.blue)).isLt
  have hv := grayscale_val color
  simp only [fpUnit] at *
  refine ⟨by omega, by omega, by omega, ?_, ?_, hv⟩
  · omega
  · omega

/-- Claim C19: for every input that fails any of the four checks the run writes no output:
the output stream exists only when the magic check and the three info-header checks have all
passed, and a run that reports an error has none. -/
theorem no_output_on_failure (stack : Stack) (data : List Byte) :
    ((checkMagic (headerRead stack data) ≠ .ok () ∨ validate (infoRead stack data) ≠ .ok ()) →
        (main stack (some data)).output = none)
    ∧ ((main stack (some data)).output ≠ none →
        checkMagic (headerRead stack data) = .ok () ∧ validate (infoRead stack data) = .ok ())
    ∧ (∀ e : FormatError, (main stack (some data)).error = some e →
        (main stack (some data)).output = none)
    ∧ (54 ≤ data.length → ¬ PassesValidation data → (main stack (some data)).output = none) := by
  have key : (checkMagic (headerRead stack data) ≠ .ok ()
      ∨ validate (infoRead stack data) ≠ .ok ()) → (main stack (some data)).output = none := by
    rcases main_outcomes stack data with ⟨hm, h⟩ | ⟨hm, e, hv, h⟩ | ⟨hm, hv, out, h⟩
    · intro _; rw [h]
    · intro _; rw [h]
    · intro hne
      rcases hne with hne | hne
      · exact absurd hm hne
      · exact absurd hv hne
  refine ⟨key, ?_, ?_, ?_⟩
  · intro hout
    by_contra hc
    apply hout
    apply key
    by_cases hm : checkMagic (headerRead stack data) = .ok ()
    · right
      intro hv
      exact hc ⟨hm, hv⟩
    · exact Or.inl hm
  · intro e he
    rcases main_outcomes stack data with ⟨hm, h⟩ | ⟨hm, e1, hv, h⟩ | ⟨hm, hv, out, h⟩
    · rw [h]
    · rw [h]
    · rw [h] at he
      simp at he
  · intro hlen hnv
    obtain ⟨e1, e2⟩ := headerRead_eq stack data hlen
    apply key
    rw [e1, e2]
    by_contra hc
    push_neg at hc
    exact hnv ⟨hlen, hc.1, hc.2⟩

/-- Instance of claim C19: the input with depth 8 leaves no output. -/
theorem no_output_on_failure_witness :
    (checkMagic (headerRead zeroStack faultyFile) ≠ .ok ()
        ∨ validate (infoRead zeroStack faultyFile) ≠ .ok ())
      ∧ (main zeroStack (some faultyFile)).output = none :=
  ⟨by decide, (no_output_on_failure zeroStack faultyFile).1 (by decide)⟩

end BitmapGrayscale
